import Mathlib

/-! go-jokes-api: a shallow embedding of the handlers, the router and the middleware.

The Go program keeps its jokes in two package variables (`jokes`, `nextID`), serves
them through `net/http` handlers and wraps every registered handler in two
middlewares.  Handlers are embedded as functions that take the response writer, the
request and the process state, and return the writer and the state they leave behind.

Conventions of the embedding:
* Go's `int` is the 64-bit one: a value is an `Int`, `nextID++` wraps around modulo
  2^64 (`wrapInt`), and `strconv.Atoi` keeps its 64-bit range check;
* a Go `string` is a Lean `String` (text that is valid UTF-8; lengths are counted in
  bytes where the program uses `len`); `strings.Split` is only ever called with the
  separator `"/"`, so it is modelled for a one-character separator;
* a Go slice is a `List` (a nil slice is the empty list); what `encoding/json` makes of
  the values is not part of the embedding.  A list can be longer than any slice: the
  backing array of a slice lies in memory, so `jokes` holds at most `maxJokes` elements
  in any state of the process, and the runs of the server pass through such states only;
* the request body is represented by the outcome of `json.Decode` into a `Joke`;
* `rand.Intn` takes its draw from an explicit argument;
* the log is a list of lines; the measured duration of a request is not recorded;
* `http.HandleFunc` and the default mux are modelled after the documented behaviour of
  `net/http`: a pattern without a trailing slash matches one path, a pattern with a
  trailing slash matches a subtree, the longest pattern wins, a path that is not in
  canonical form is redirected, and a path no pattern matches gets the plain-text 404.
-/

namespace JokesAPI

/-! ## models.go -/

/-- Joke represents a programming joke. -/
structure Joke where
  ID : Int
  Setup : String
  Punchline : String
  Category : String
deriving DecidableEq, Repr

/-- The values the handlers store in `Response.Data` (Go: `interface{}`). -/
inductive Data where
  | null
  | joke (j : Joke)
  | jokes (js : List Joke)
  | strMap (m : List (String × String))
  | stats (total_jokes : Nat) (categories : List (String × Nat)) (next_id : Int)
deriving DecidableEq, Repr

/-- Response represents a standard API response. -/
structure Response where
  Success : Bool
  Message : String
  Data : Data
deriving DecidableEq, Repr

/-- ErrorResponse represents an error response. -/
structure ErrorResponse where
  Success : Bool
  Error : String
deriving DecidableEq, Repr

/-- The five jokes the package variable `jokes` is initialised with. -/
def seedJokes : List Joke :=
  [ { ID := 1, Setup := "Why do programmers prefer dark mode?",
      Punchline := "Because light attracts bugs!", Category := "general" },
    { ID := 2, Setup := "How many programmers does it take to change a light bulb?",
      Punchline := "None. It's a hardware problem!", Category := "general" },
    { ID := 3, Setup := "Why do Java developers wear glasses?",
      Punchline := "Because they don't C#!", Category := "languages" },
    { ID := 4, Setup := "What's a programmer's favorite hangout place?",
      Punchline := "Foo Bar!", Category := "general" },
    { ID := 5, Setup := "Why did the programmer quit his job?",
      Punchline := "Because he didn't get arrays!", Category := "general" } ]

/-! ## The process state, requests and response writers -/

/-- One line written by `log.Printf`. -/
inductive LogLine where
  | request (method path remoteAddr : String)
  | completed
deriving DecidableEq, Repr

/-- The package variables `jokes` and `nextID`, and the log the process has written. -/
structure State where
  jokes : List Joke
  nextID : Int
  log : List LogLine
deriving DecidableEq, Repr

/-- The state at start-up: the five seeds, `nextID = 6`, nothing logged. -/
def initialState : State := { jokes := seedJokes, nextID := 6, log := [] }

/-- The parts of `*http.Request` the program reads.  `Body` is what
`json.NewDecoder(r.Body).Decode(&newJoke)` leaves in a zero `Joke`, or `none` when
it returns an error. -/
structure Request where
  Method : String
  Path : String
  RemoteAddr : String
  Body : Option Joke
deriving DecidableEq, Repr

/-- What is written to the body of a response. -/
inductive Body where
  | response (r : Response)
  | errorResponse (e : ErrorResponse)
  | text (s : String)
deriving DecidableEq, Repr

/-- The `http.ResponseWriter`: the header map, the status line once written, and the
values written to the body, in order. -/
structure ResponseWriter where
  header : List (String × String)
  status : Option Nat
  body : List Body
deriving DecidableEq, Repr

/-- A response writer nothing has been written to. -/
def ResponseWriter.fresh : ResponseWriter := { header := [], status := none, body := [] }

/-- Models `w.Header().Set(key, value)`: replaces the values of `key`. -/
def ResponseWriter.Set (w : ResponseWriter) (key value : String) : ResponseWriter :=
  { w with header := w.header.filter (fun kv => kv.1 ≠ key) ++ [(key, value)] }

/-- Models `w.WriteHeader(statusCode)`: only the first call has an effect. -/
def ResponseWriter.WriteHeader (w : ResponseWriter) (statusCode : Nat) : ResponseWriter :=
  match w.status with
  | some _ => w
  | none => { w with status := some statusCode }

/-- Models a write to the body (`json.NewEncoder(w).Encode(v)`): the status line is
written with 200 first when no status was written before. -/
def ResponseWriter.Encode (w : ResponseWriter) (b : Body) : ResponseWriter :=
  { (w.WriteHeader 200) with body := w.body ++ [b] }

/-- The status code the client receives (200 when none was written). -/
def ResponseWriter.statusCode (w : ResponseWriter) : Nat := w.status.getD 200

/-- Go's `http.HandlerFunc`. -/
abbrev HandlerFunc := ResponseWriter → Request → State → ResponseWriter × State

def StatusOK : Nat := 200
def StatusCreated : Nat := 201
def StatusMovedPermanently : Nat := 301
def StatusBadRequest : Nat := 400
def StatusNotFound : Nat := 404
def StatusMethodNotAllowed : Nat := 405
def MethodGet : String := "GET"
def MethodPost : String := "POST"

/-! ## Library functions the handlers call -/

/-- The pieces of a character list between the occurrences of `sep`. -/
def splitChars (sep : Char) : List Char → List (List Char)
  | [] => [[]]
  | c :: cs =>
    if c = sep then [] :: splitChars sep cs
    else
      match splitChars sep cs with
      | [] => [[c]]
      | p :: ps => (c :: p) :: ps

/-- Models `strings.Split(s, sep)` for a separator of one character. -/
def Split (s : String) (sep : Char) : List String :=
  (splitChars sep s.data).map String.mk

/-- The value of a decimal digit. -/
def digitVal (c : Char) : Option Nat :=
  if 48 ≤ c.toNat ∧ c.toNat ≤ 57 then some (c.toNat - 48) else none

/-- Reads decimal digits onto the accumulator; `none` at the first other character. -/
def parseDigits : List Char → Nat → Option Nat
  | [], acc => some acc
  | c :: cs, acc =>
    match digitVal c with
    | some d => parseDigits cs (acc * 10 + d)
    | none => none

/-- A non-empty run of decimal digits. -/
def parseUint (cs : List Char) : Option Nat :=
  match cs with
  | [] => none
  | _ :: _ => parseDigits cs 0

/-- The largest value of Go's `int` (64 bits). -/
def maxInt : Int := 9223372036854775807

/-- The smallest value of Go's `int` (64 bits). -/
def minInt : Int := -9223372036854775808

/-- The value Go's 64-bit `int` arithmetic keeps of a mathematical result: the
representative modulo 2^64 that lies between `minInt` and `maxInt`. -/
def wrapInt (n : Int) : Int :=
  (n + 9223372036854775808) % 18446744073709551616 - 9223372036854775808

/-- Models `strconv.Atoi`: an optional sign, then decimal digits only; the value has
to fit Go's `int`.  `none` stands for the error result. -/
def Atoi (s : String) : Option Int :=
  match s.data with
  | [] => none
  | c :: cs =>
    if c = '-' then
      match parseUint cs with
      | some n => if -(n : Int) < minInt then none else some (-(n : Int))
      | none => none
    else if c = '+' then
      match parseUint cs with
      | some n => if maxInt < (n : Int) then none else some (n : Int)
      | none => none
    else
      match parseUint (c :: cs) with
      | some n => if maxInt < (n : Int) then none else some (n : Int)
      | none => none

/-- The decimal rendering of an integer, as `strconv.Itoa` and `%d` produce it. -/
def Itoa (n : Int) : String :=
  match n with
  | Int.ofNat m => Nat.repr m
  | Int.negSucc m => "-" ++ Nat.repr (m + 1)

/-! ## handlers.go -/

/-- errorResponse sends a JSON error response. -/
def errorResponse (w : ResponseWriter) (message : String) (statusCode : Nat) : ResponseWriter :=
  (w.WriteHeader statusCode).Encode (Body.errorResponse { Success := false, Error := message })

/-- healthHandler returns API health status. -/
def healthHandler : HandlerFunc := fun w _r s =>
  let w := w.Set "Content-Type" "application/json"
  let response : Response :=
    { Success := true, Message := "API is running",
      Data := Data.strMap [("status", "healthy"), ("version", "1.0.0")] }
  (w.Encode (Body.response response), s)

/-- getAllJokesHandler returns all jokes. -/
def getAllJokesHandler : HandlerFunc := fun w _r s =>
  let w := w.Set "Content-Type" "application/json"
  let response : Response :=
    { Success := true,
      Message := "Found " ++ Itoa s.jokes.length ++ " jokes",
      Data := Data.jokes s.jokes }
  (w.Encode (Body.response response), s)

/-- getRandomJokeHandler returns a random joke; `rnd` is the draw `rand.Intn` reduces
to an index below `len(jokes)`. -/
def getRandomJokeHandler (rnd : Nat) : HandlerFunc := fun w _r s =>
  let w := w.Set "Content-Type" "application/json"
  if s.jokes.length = 0 then
    (errorResponse w "No jokes available" StatusNotFound, s)
  else
    let randomIndex := rnd % s.jokes.length
    match s.jokes[randomIndex]? with
    | none => (w, s)
    | some randomJoke =>
      let response : Response := { Success := true, Message := "", Data := Data.joke randomJoke }
      (w.Encode (Body.response response), s)

/-- getJokeByIDHandler returns a joke by ID. -/
def getJokeByIDHandler : HandlerFunc := fun w r s =>
  let w := w.Set "Content-Type" "application/json"
  let pathParts := Split r.Path '/'
  if pathParts.length < 4 then
    (errorResponse w "Invalid URL format" StatusBadRequest, s)
  else
    let idStr := pathParts.getD 3 ""
    match Atoi idStr with
    | none => (errorResponse w "Invalid ID format" StatusBadRequest, s)
    | some id =>
      match s.jokes.find? (fun joke => joke.ID = id) with
      | some joke =>
        let response : Response := { Success := true, Message := "", Data := Data.joke joke }
        (w.Encode (Body.response response), s)
      | none => (errorResponse w "Joke not found" StatusNotFound, s)

/-- createJokeHandler adds a new joke. -/
def createJokeHandler : HandlerFunc := fun w r s =>
  let w := w.Set "Content-Type" "application/json"
  if r.Method ≠ MethodPost then
    (errorResponse w "Method not allowed" StatusMethodNotAllowed, s)
  else
    match r.Body with
    | none => (errorResponse w "Invalid JSON format" StatusBadRequest, s)
    | some decoded =>
      if decoded.Setup = "" ∨ decoded.Punchline = "" then
        (errorResponse w "Setup and punchline are required" StatusBadRequest, s)
      else
        let category := if decoded.Category = "" then "general" else decoded.Category
        let newJoke : Joke := { decoded with Category := category, ID := s.nextID }
        let s := { s with nextID := wrapInt (s.nextID + 1), jokes := s.jokes ++ [newJoke] }
        let response : Response :=
          { Success := true, Message := "Joke created successfully", Data := Data.joke newJoke }
        (((w.WriteHeader StatusCreated).Encode (Body.response response)), s)

/-- getJokesByCategoryHandler filters jokes by category. -/
def getJokesByCategoryHandler : HandlerFunc := fun w r s =>
  let w := w.Set "Content-Type" "application/json"
  let pathParts := Split r.Path '/'
  if pathParts.length < 5 then
    (errorResponse w "Invalid URL format" StatusBadRequest, s)
  else
    let category := pathParts.getD 4 ""
    let filteredJokes := s.jokes.filter (fun joke => joke.Category = category)
    let response : Response :=
      { Success := true,
        Message := "Found " ++ Itoa filteredJokes.length ++ " jokes in category \x27" ++ category ++ "\x27",
        Data := Data.jokes filteredJokes }
    (w.Encode (Body.response response), s)

/-- Models `categoryCount[key]++` on a map kept as an association list. -/
def incrCount : List (String × Nat) → String → List (String × Nat)
  | [], key => [(key, 1)]
  | (k, n) :: rest, key => if k = key then (k, n + 1) :: rest else (k, n) :: incrCount rest key

/-- statsHandler returns API statistics. -/
def statsHandler : HandlerFunc := fun w _r s =>
  let w := w.Set "Content-Type" "application/json"
  let categoryCount := s.jokes.foldl (fun m joke => incrCount m joke.Category) []
  let response : Response :=
    { Success := true, Message := "",
      Data := Data.stats s.jokes.length categoryCount s.nextID }
  (w.Encode (Body.response response), s)

/-! ## middleware.go -/

/-- A middleware wraps a handler into a handler. -/
abbrev Middleware := HandlerFunc → HandlerFunc

/-- loggingMiddleware logs all HTTP requests. -/
def loggingMiddleware (next : HandlerFunc) : HandlerFunc := fun w r s =>
  let s := { s with log := s.log ++ [LogLine.request r.Method r.Path r.RemoteAddr] }
  let res := next w r s
  (res.1, { res.2 with log := res.2.log ++ [LogLine.completed] })

/-- corsMiddleware adds CORS headers. -/
def corsMiddleware (next : HandlerFunc) : HandlerFunc := fun w r s =>
  let w := w.Set "Access-Control-Allow-Origin" "*"
  let w := w.Set "Access-Control-Allow-Methods" "GET, POST, OPTIONS"
  let w := w.Set "Access-Control-Allow-Headers" "Content-Type"
  if r.Method = "OPTIONS" then
    (w.WriteHeader StatusOK, s)
  else
    next w r s

/-- The loop of `chainMiddleware`: `n` is `i + 1` for the loop variable `i`, which
runs from `len(middlewares) - 1` down to `0`. -/
def chainLoop (middlewares : List Middleware) : Nat → HandlerFunc → HandlerFunc
  | 0, handler => handler
  | i + 1, handler =>
    match middlewares[i]? with
    | some m => chainLoop middlewares i (m handler)
    | none => handler

/-- chainMiddleware combines multiple middleware functions. -/
def chainMiddleware (handler : HandlerFunc) (middlewares : List Middleware) : HandlerFunc :=
  chainLoop middlewares middlewares.length handler

/-- The composition the specification describes: `m1(m2(...(mn(H))...))`. -/
def nestMiddleware : List Middleware → HandlerFunc → HandlerFunc
  | [], handler => handler
  | m :: ms, handler => m (nestMiddleware ms handler)

/-! ## main.go -/

/-- jokesRouter routes /api/jokes to appropriate handler based on method and path. -/
def jokesRouter : HandlerFunc := fun w r s =>
  if r.Method = MethodPost then
    createJokeHandler w r s
  else if r.Method = MethodGet then
    if r.Path.utf8ByteSize > "/api/jokes/".utf8ByteSize then
      getJokeByIDHandler w r s
    else
      getAllJokesHandler w r s
  else
    (errorResponse w "Method not allowed" StatusMethodNotAllowed, s)

/-- The patterns registered with `http.HandleFunc`, each with its handler. -/
structure ServeMux where
  entries : List (String × HandlerFunc)

/-- A pattern that ends in a slash names a subtree. -/
def isSubtreePattern (pattern : String) : Bool :=
  pattern.data.getLast? = some '/'

/-- The longest registered subtree pattern that is a leading part of `path`. -/
def ServeMux.longestSubtree (mux : ServeMux) (path : String) : Option (String × HandlerFunc) :=
  mux.entries.foldl
    (fun best e =>
      if isSubtreePattern e.1 && e.1.data.isPrefixOf path.data then
        match best with
        | some b => if b.1.length < e.1.length then some e else best
        | none => some e
      else best)
    none

/-- Models the pattern lookup of `net/http`: a pattern equal to the path first, else
the longest subtree pattern the path starts with. -/
def ServeMux.findHandler (mux : ServeMux) (path : String) : Option HandlerFunc :=
  match mux.entries.find? (fun e => e.1 = path) with
  | some e => some e.2
  | none => (mux.longestSubtree path).map (fun e => e.2)

/-- Whether `pattern` is registered. -/
def ServeMux.registered (mux : ServeMux) (pattern : String) : Bool :=
  mux.entries.any (fun e => e.1 = pattern)

/-- Models `net/http`: a path `/tree` that is not registered is redirected when
`/tree/` is. -/
def ServeMux.redirectToPathSlash (mux : ServeMux) (path : String) : Bool :=
  !mux.registered path && path ≠ "" && mux.registered (path ++ "/")
    && !isSubtreePattern path

/-- Whether `net/http` leaves the path as it is: it starts with a slash and has no
empty element (but a trailing slash), no `.` and no `..` element. -/
def isCleanPath (path : String) : Bool :=
  match Split path '/' with
  | [] => false
  | first :: rest =>
    first = "" && !rest.isEmpty
      && rest.dropLast.all (fun e => e ≠ "" && e ≠ "." && e ≠ "..")
      && rest.getLast?.all (fun e => e ≠ "." && e ≠ "..")

/-- Models `http.NotFound`, the reply of the mux to a path no pattern matches. -/
def NotFound : HandlerFunc := fun w _r s =>
  let w := w.Set "Content-Type" "text/plain; charset=utf-8"
  let w := w.Set "X-Content-Type-Options" "nosniff"
  (((w.WriteHeader StatusNotFound).Encode (Body.text "404 page not found\n")), s)

/-- Models the reply of the mux when it redirects (status 301); the target and the
body of the redirect are not recorded. -/
def RedirectHandler : HandlerFunc := fun w _r s =>
  (w.WriteHeader StatusMovedPermanently, s)

/-- Models `(*ServeMux).ServeHTTP`: `CONNECT` requests are matched as they are, other
requests are redirected when their path is not clean.  (The request target `*` is not
modelled.) -/
def ServeMux.ServeHTTP (mux : ServeMux) : HandlerFunc := fun w r s =>
  if mux.redirectToPathSlash r.Path then RedirectHandler w r s
  else if r.Method ≠ "CONNECT" && !isCleanPath r.Path then RedirectHandler w r s
  else
    match mux.findHandler r.Path with
    | some h => h w r s
    | none => NotFound w r s

/-- The routes `main` registers on the default mux, in order. -/
def routes (rnd : Nat) : ServeMux :=
  { entries :=
      [ ("/health", chainMiddleware healthHandler [loggingMiddleware, corsMiddleware]),
        ("/api/jokes", chainMiddleware jokesRouter [loggingMiddleware, corsMiddleware]),
        ("/api/jokes/random",
          chainMiddleware (getRandomJokeHandler rnd) [loggingMiddleware, corsMiddleware]),
        ("/api/jokes/category/",
          chainMiddleware getJokesByCategoryHandler [loggingMiddleware, corsMiddleware]),
        ("/api/stats", chainMiddleware statsHandler [loggingMiddleware, corsMiddleware]) ] }

/-- The server `http.ListenAndServe(port, nil)` runs: the default mux with the routes
of `main`. -/
def serve (rnd : Nat) : HandlerFunc := (routes rnd).ServeHTTP

/-! ## Runs of the server -/

/-- The handlers of handlers.go. -/
inductive Handler where
  | health
  | getAllJokes
  | getRandomJoke (rnd : Nat)
  | getJokeByID
  | createJoke
  | getJokesByCategory
  | stats
deriving DecidableEq, Repr

/-- The function a handler name stands for. -/
def Handler.run : Handler → HandlerFunc
  | .health => healthHandler
  | .getAllJokes => getAllJokesHandler
  | .getRandomJoke rnd => getRandomJokeHandler rnd
  | .getJokeByID => getJokeByIDHandler
  | .createJoke => createJokeHandler
  | .getJokesByCategory => getJokesByCategoryHandler
  | .stats => statsHandler

/-- A bound on `len(jokes)` that holds of every slice of jokes on a 64-bit platform: the
elements lie in memory one after another, a `Joke` takes 56 bytes (an `int` and three
string headers of 16 bytes each), and the size of the backing array fits Go's `int`. -/
def maxJokes : Nat := 9223372036854775807 / 56

/-- The states reachable from the initial state by handler invocations, each with an
arbitrary response writer and an arbitrary request.  Every state of a run is one the
process can hold: `jokes` is a slice, so it has at most `maxJokes` elements. -/
inductive Reachable : State → Prop where
  | init : Reachable initialState
  | step (h : Handler) (w : ResponseWriter) (r : Request) {s : State} :
      Reachable s → (h.run w r s).2.jokes.length ≤ maxJokes → Reachable (h.run w r s).2

/-- The state after a sequence of handler invocations. -/
def runAll : List (Handler × ResponseWriter × Request) → State → State
  | [], s => s
  | (h, w, r) :: rest, s => runAll rest (h.run w r s).2

/-- The request `GET path`. -/
def getRequest (path : String) : Request :=
  { Method := MethodGet, Path := path, RemoteAddr := "", Body := none }

/-- A `POST /api/jokes` whose body decodes to `payload`. -/
def postRequest (payload : Joke) : Request :=
  { Method := MethodPost, Path := "/api/jokes", RemoteAddr := "", Body := some payload }

/-! ## Notions used to state the properties -/

/-- The writer `corsMiddleware` hands on: the three CORS headers are set. -/
def withCORS (w : ResponseWriter) : ResponseWriter :=
  ((w.Set "Access-Control-Allow-Origin" "*").Set
      "Access-Control-Allow-Methods" "GET, POST, OPTIONS").Set
    "Access-Control-Allow-Headers" "Content-Type"

/-- The value a header map holds for `key`. -/
def ResponseWriter.Get (w : ResponseWriter) (key : String) : Option String :=
  (w.header.find? (fun kv => kv.1 = key)).map (fun kv => kv.2)

/-- A response writer nothing was written to yet, with the headers set so far. -/
def ResponseWriter.unwritten (headers : List (String × String)) : ResponseWriter :=
  { header := headers, status := none, body := [] }

/-- The joke the specification has `create` store for a decoded payload: the id is the
counter, the category is `"general"` when the payload has none. -/
def createdJoke (nextID : Int) (payload : Joke) : Joke :=
  { ID := nextID, Setup := payload.Setup, Punchline := payload.Punchline,
    Category := if payload.Category = "" then "general" else payload.Category }

/-- A decimal digit character. -/
abbrev isDigitChar (c : Char) : Prop := 48 ≤ c.toNat ∧ c.toNat ≤ 57

/-- The shape of the store in every run: the seeds, then the created jokes with the ids
6, 7, 8, ... in order, and the counter one past the last id. -/
def StoreInvariant (s : State) : Prop :=
  ∃ added : List Joke, s.jokes = seedJokes ++ added
    ∧ added.map (fun j => j.ID) = (List.range added.length).map (fun (i : Nat) => (i : Int) + 6)
    ∧ s.nextID = (added.length : Int) + 6

/-- The part of `cat` before its first slash (all of `cat` when it has none). -/
def firstSegment (cat : String) : String :=
  String.mk (cat.data.takeWhile (fun c => c ≠ '/'))

/-! # Properties -/

/-! ## Response writers -/

theorem status_Set (w : ResponseWriter) (k v : String) : (w.Set k v).status = w.status := rfl

theorem errorResponse_unwritten (w : ResponseWriter) (msg : String) (code : Nat)
    (hs : w.status = none) :
    errorResponse w msg code =
      { header := w.header, status := some code,
        body := w.body ++ [Body.errorResponse { Success := false, Error := msg }] } := by
  cases w
  simp_all [errorResponse, ResponseWriter.WriteHeader, ResponseWriter.Encode]

theorem encode_unwritten (w : ResponseWriter) (b : Body) (hs : w.status = none) :
    w.Encode b = { header := w.header, status := some 200, body := w.body ++ [b] } := by
  cases w
  simp_all [ResponseWriter.WriteHeader, ResponseWriter.Encode]

theorem writeHeader_encode_unwritten (w : ResponseWriter) (b : Body) (code : Nat)
    (hs : w.status = none) :
    (w.WriteHeader code).Encode b =
      { header := w.header, status := some code, body := w.body ++ [b] } := by
  cases w
  simp_all [ResponseWriter.WriteHeader, ResponseWriter.Encode]

/-! ## chainMiddleware -/

theorem nestMiddleware_append (ms₁ ms₂ : List Middleware) (h : HandlerFunc) :
    nestMiddleware (ms₁ ++ ms₂) h = nestMiddleware ms₁ (nestMiddleware ms₂ h) := by
  induction ms₁ with
  | nil => rfl
  | cons m ms ih => simp [nestMiddleware, ih]

theorem chainLoop_eq_nest (ms : List Middleware) (n : Nat) (hn : n ≤ ms.length)
    (h : HandlerFunc) : chainLoop ms n h = nestMiddleware (ms.take n) h := by
  induction n generalizing h with
  | zero => simp [chainLoop, nestMiddleware]
  | succ i ih =>
    have hi : i < ms.length := hn
    rw [chainLoop, List.getElem?_eq_getElem hi]
    simp only
    rw [ih (Nat.le_of_lt hi), List.take_succ, List.getElem?_eq_getElem hi, nestMiddleware_append]
    rfl

/-- C8: chainMiddleware(H, m1, ..., mn) is m1(m2(...(mn(H))...)), the first-listed
middleware outermost; with no middleware it is H itself, and
chainMiddleware(H, loggingMiddleware, corsMiddleware) is
loggingMiddleware(corsMiddleware(H)). -/
theorem chainMiddleware_first_listed_outermost (H : HandlerFunc) (ms : List Middleware) :
    chainMiddleware H ms = nestMiddleware ms H
      ∧ chainMiddleware H [] = H
      ∧ chainMiddleware H [loggingMiddleware, corsMiddleware]
          = loggingMiddleware (corsMiddleware H) := by
  have key : ∀ l : List Middleware, chainMiddleware H l = nestMiddleware l H := by
    intro l
    rw [chainMiddleware, chainLoop_eq_nest l l.length (Nat.le_refl _), List.take_length]
  exact ⟨key ms, key [], key _⟩

/-! ## corsMiddleware -/

theorem find?_filter_append {α : Type} (p q : α → Bool) (x : α) (l : List α)
    (hpq : ∀ a, p a = true → q a = true) :
    (l.filter q ++ [x]).find? p = (l.find? p).or (if p x then some x else none) := by
  induction l with
  | nil => cases hx : p x <;> simp [hx]
  | cons a l ih =>
    cases hq : q a
    · have hp : p a = false := by
        cases hpa : p a
        · rfl
        · rw [hpq a hpa] at hq; cases hq
      rw [List.filter_cons_of_neg (by simp [hq]), ih, List.find?_cons, hp]
    · rw [List.filter_cons_of_pos hq, List.cons_append, List.find?_cons, List.find?_cons, ih]
      cases p a <;> rfl

theorem get_Set_self (w : ResponseWriter) (k v : String) : (w.Set k v).Get k = some v := by
  have h : ∀ l : List (String × String),
      (l.filter (fun kv => kv.1 ≠ k) ++ [(k, v)]).find? (fun kv => kv.1 = k) = some (k, v) := by
    intro l
    induction l with
    | nil => simp
    | cons a l ih =>
      by_cases ha : a.1 = k
      · rw [List.filter_cons_of_neg (by simp [ha])]; exact ih
      · rw [List.filter_cons_of_pos (by simp [ha]), List.cons_append, List.find?_cons]
        simp only [ha, decide_False]
        exact ih
  simp [ResponseWriter.Get, ResponseWriter.Set, h]

theorem get_Set_other (w : ResponseWriter) (k k2 v : String) (hk : k2 ≠ k) :
    (w.Set k v).Get k2 = w.Get k2 := by
  have h : (w.header.filter (fun kv => kv.1 ≠ k) ++ [(k, v)]).find? (fun kv => kv.1 = k2)
        = w.header.find? (fun kv => kv.1 = k2) := by
    rw [find?_filter_append]
    · have : ¬ k = k2 := fun e => hk e.symm
      simp [this]
    · intro a ha
      have h1 : a.1 = k2 := by simpa using ha
      have : ¬ a.1 = k := by rw [h1]; exact hk
      simp [this]
  simp only [ResponseWriter.Get, ResponseWriter.Set, h]

theorem withCORS_headers (w : ResponseWriter) :
    (withCORS w).Get "Access-Control-Allow-Origin" = some "*"
      ∧ (withCORS w).Get "Access-Control-Allow-Methods" = some "GET, POST, OPTIONS"
      ∧ (withCORS w).Get "Access-Control-Allow-Headers" = some "Content-Type" := by
  refine ⟨?_, ?_, ?_⟩
  · rw [withCORS, get_Set_other _ _ _ _ (by decide), get_Set_other _ _ _ _ (by decide),
      get_Set_self]
  · rw [withCORS, get_Set_other _ _ _ _ (by decide), get_Set_self]
  · rw [withCORS, get_Set_self]

theorem corsMiddleware_options (H : HandlerFunc) (w : ResponseWriter) (r : Request) (s : State)
    (hm : r.Method = "OPTIONS") :
    corsMiddleware H w r s = ((withCORS w).WriteHeader StatusOK, s) := by
  simp [corsMiddleware, hm, withCORS]

theorem corsMiddleware_other (H : HandlerFunc) (w : ResponseWriter) (r : Request) (s : State)
    (hm : r.Method ≠ "OPTIONS") :
    corsMiddleware H w r s = H (withCORS w) r s := by
  simp [corsMiddleware, hm, withCORS]

/-- C9: for a request whose method is OPTIONS, corsMiddleware(H) sets the three CORS
headers, writes status 200 with an empty body and does not invoke H (the outcome is the
same for every H), so the state is unchanged, also when H is the create handler and the
payload is valid; for every other method H is invoked once, on the writer with the same
three headers set, and its outcome is the outcome of the middleware. -/
theorem corsMiddleware_preflight_short_circuit (H : HandlerFunc)
    (headers : List (String × String)) (r : Request) (s : State) :
    (r.Method = "OPTIONS" →
        (corsMiddleware H { header := headers, status := none, body := [] } r s).1.Get
            "Access-Control-Allow-Origin" = some "*"
          ∧ (corsMiddleware H { header := headers, status := none, body := [] } r s).1.Get
              "Access-Control-Allow-Methods" = some "GET, POST, OPTIONS"
          ∧ (corsMiddleware H { header := headers, status := none, body := [] } r s).1.Get
              "Access-Control-Allow-Headers" = some "Content-Type"
          ∧ (corsMiddleware H { header := headers, status := none, body := [] } r s).1.status
              = some 200
          ∧ (corsMiddleware H { header := headers, status := none, body := [] } r s).1.body = []
          ∧ (corsMiddleware H { header := headers, status := none, body := [] } r s).2 = s
          ∧ (∀ H2 : HandlerFunc,
              corsMiddleware H { header := headers, status := none, body := [] } r s
                = corsMiddleware H2 { header := headers, status := none, body := [] } r s)
          ∧ (corsMiddleware createJokeHandler
              { header := headers, status := none, body := [] } r s).2 = s)
      ∧ (r.Method ≠ "OPTIONS" →
          corsMiddleware H { header := headers, status := none, body := [] } r s
              = H (withCORS { header := headers, status := none, body := [] }) r s
            ∧ (withCORS { header := headers, status := none, body := [] }).Get
                "Access-Control-Allow-Origin" = some "*"
            ∧ (withCORS { header := headers, status := none, body := [] }).Get
                "Access-Control-Allow-Methods" = some "GET, POST, OPTIONS"
            ∧ (withCORS { header := headers, status := none, body := [] }).Get
                "Access-Control-Allow-Headers" = some "Content-Type") := by
  constructor
  · intro hm
    have hw := withCORS_headers { header := headers, status := none, body := [] }
    have e : ∀ K : HandlerFunc,
        corsMiddleware K { header := headers, status := none, body := [] } r s
          = ({ header := (withCORS { header := headers, status := none, body := [] }).header,
               status := some 200, body := [] }, s) := by
      intro K
      rw [corsMiddleware_options K _ r s hm]
      rfl
    refine ⟨?_, ?_, ?_, ?_, ?_, ?_, ?_, ?_⟩
    · rw [e]; exact hw.1
    · rw [e]; exact hw.2.1
    · rw [e]; exact hw.2.2
    · rw [e]
    · rw [e]
    · rw [e]
    · intro H2; rw [e, e]
    · rw [e]
  · intro hm
    exact ⟨corsMiddleware_other H _ r s hm, withCORS_headers _⟩

/-- C9 at two requests on the initial state, both in front of the create handler with a
valid payload: an OPTIONS request, and a POST request. -/
theorem corsMiddleware_preflight_short_circuit_witness :
    ((corsMiddleware createJokeHandler ResponseWriter.fresh
          { Method := "OPTIONS", Path := "/api/jokes", RemoteAddr := "",
            Body := some { ID := 0, Setup := "Why?", Punchline := "Because.", Category := "" } }
          initialState).1.status = some 200
        ∧ (corsMiddleware createJokeHandler ResponseWriter.fresh
          { Method := "OPTIONS", Path := "/api/jokes", RemoteAddr := "",
            Body := some { ID := 0, Setup := "Why?", Punchline := "Because.", Category := "" } }
          initialState).2 = initialState)
      ∧ corsMiddleware createJokeHandler ResponseWriter.fresh
          (postRequest { ID := 0, Setup := "Why?", Punchline := "Because.", Category := "" })
          initialState
        = createJokeHandler (withCORS ResponseWriter.fresh)
          (postRequest { ID := 0, Setup := "Why?", Punchline := "Because.", Category := "" })
          initialState :=
  have t := (corsMiddleware_preflight_short_circuit createJokeHandler []
    { Method := "OPTIONS", Path := "/api/jokes", RemoteAddr := "",
      Body := some { ID := 0, Setup := "Why?", Punchline := "Because.", Category := "" } }
    initialState).1 (by decide)
  have u := (corsMiddleware_preflight_short_circuit createJokeHandler []
    (postRequest { ID := 0, Setup := "Why?", Punchline := "Because.", Category := "" })
    initialState).2 (by decide)
  ⟨⟨t.2.2.2.1, t.2.2.2.2.2.1⟩, u.1⟩

/-! ## createJokeHandler -/

/-- Go's `int` arithmetic is exact on results that are values of `int`. -/
theorem wrapInt_of_fits (n : Int) (h1 : minInt ≤ n) (h2 : n ≤ maxInt) : wrapInt n = n := by
  unfold minInt at h1
  unfold maxInt at h2
  have h : (n + 9223372036854775808) % 18446744073709551616 = n + 9223372036854775808 :=
    Int.emod_eq_of_lt (by omega) (by omega)
  rw [wrapInt, h]
  omega

theorem createJokeHandler_valid (w : ResponseWriter) (r : Request) (s : State) (payload : Joke)
    (hw : w.status = none) (hm : r.Method = MethodPost) (hb : r.Body = some payload)
    (hs : payload.Setup ≠ "") (hp : payload.Punchline ≠ "") :
    createJokeHandler w r s =
      ({ header := (w.Set "Content-Type" "application/json").header,
         status := some 201,
         body := w.body ++ [Body.response
            { Success := true, Message := "Joke created successfully",
              Data := Data.joke (createdJoke s.nextID payload) }] },
       { jokes := s.jokes ++ [createdJoke s.nextID payload],
         nextID := wrapInt (s.nextID + 1), log := s.log }) := by
  unfold createJokeHandler
  simp only [hm, hb, hs, hp, ne_eq, not_true_eq_false, or_self, if_false]
  rw [writeHeader_encode_unwritten _ _ _ (by rw [status_Set]; exact hw)]
  rfl

theorem createJokeHandler_invalid (w : ResponseWriter) (r : Request) (s : State) (payload : Joke)
    (hw : w.status = none) (hm : r.Method = MethodPost) (hb : r.Body = some payload)
    (he : payload.Setup = "" ∨ payload.Punchline = "") :
    createJokeHandler w r s =
      ({ header := (w.Set "Content-Type" "application/json").header,
         status := some 400,
         body := w.body ++ [Body.errorResponse
            { Success := false, Error := "Setup and punchline are required" }] }, s) := by
  unfold createJokeHandler
  simp only [hm, hb, he, ne_eq, not_true_eq_false, if_false, if_true]
  rw [errorResponse_unwritten _ _ _ (by rw [status_Set]; exact hw)]
  rfl

/-- C1 (amended): a POST whose decoded payload has a non-empty setup and a non-empty
punchline is answered with status 201 and a success envelope whose data is the new joke;
its id is the prior nextID (whatever id the payload carried), its setup and punchline are
the payload's, its category is the payload's, or "general" when that is empty; afterwards
jokes is the prior sequence with the new joke appended, and nextID is the prior value plus
1 when the prior value is below 9223372036854775807, the largest int; from that value the
increment wraps around to -9223372036854775808.  On the initial state the assigned id
is 6. -/
theorem createJokeHandler_assigns_nextID (s : State) (headers : List (String × String))
    (r : Request) (payload : Joke) (hm : r.Method = MethodPost) (hb : r.Body = some payload)
    (hs : payload.Setup ≠ "") (hp : payload.Punchline ≠ "") :
    (createJokeHandler (ResponseWriter.unwritten headers) r s).1.statusCode = 201
      ∧ (createJokeHandler (ResponseWriter.unwritten headers) r s).1.body =
          [Body.response
            { Success := true, Message := "Joke created successfully",
              Data := Data.joke
                { ID := s.nextID, Setup := payload.Setup, Punchline := payload.Punchline,
                  Category := if payload.Category = "" then "general" else payload.Category } }]
      ∧ (minInt ≤ s.nextID ∧ s.nextID < maxInt →
          (createJokeHandler (ResponseWriter.unwritten headers) r s).2.nextID = s.nextID + 1)
      ∧ (s.nextID = maxInt →
          (createJokeHandler (ResponseWriter.unwritten headers) r s).2.nextID = minInt)
      ∧ (createJokeHandler (ResponseWriter.unwritten headers) r s).2.jokes =
          s.jokes ++
            [{ ID := s.nextID, Setup := payload.Setup, Punchline := payload.Punchline,
               Category := if payload.Category = "" then "general" else payload.Category }]
      ∧ (createJokeHandler (ResponseWriter.unwritten headers) r initialState).1.body =
          [Body.response
            { Success := true, Message := "Joke created successfully",
              Data := Data.joke
                { ID := 6, Setup := payload.Setup, Punchline := payload.Punchline,
                  Category := if payload.Category = "" then "general" else payload.Category } }] := by
  have e := fun st => createJokeHandler_valid (ResponseWriter.unwritten headers) r st payload
    rfl hm hb hs hp
  rw [e s, e initialState]
  refine ⟨rfl, rfl, ?_, ?_, rfl, rfl⟩
  · intro hfit
    have h1 : minInt ≤ s.nextID + 1 := by omega
    have h2 : s.nextID + 1 ≤ maxInt := by omega
    exact wrapInt_of_fits _ h1 h2
  · intro hmax
    show wrapInt (s.nextID + 1) = minInt
    rw [hmax]
    decide

/-- C1 (amended) on the scenario of the specification:
POST {"setup":"Why?","punchline":"Because."} on the initial state creates the joke with
id 6 and category "general" and leaves nextID one higher; from nextID =
9223372036854775807 the same request leaves nextID = -9223372036854775808. -/
theorem createJokeHandler_assigns_nextID_witness :
    (createJokeHandler (ResponseWriter.unwritten [])
        (postRequest { ID := 0, Setup := "Why?", Punchline := "Because.", Category := "" })
        initialState).1.statusCode = 201
      ∧ (createJokeHandler (ResponseWriter.unwritten [])
        (postRequest { ID := 0, Setup := "Why?", Punchline := "Because.", Category := "" })
        initialState).1.body =
          [Body.response
            { Success := true, Message := "Joke created successfully",
              Data := Data.joke
                { ID := 6, Setup := "Why?", Punchline := "Because.", Category := "general" } }]
      ∧ (createJokeHandler (ResponseWriter.unwritten [])
        (postRequest { ID := 0, Setup := "Why?", Punchline := "Because.", Category := "" })
        initialState).2.nextID = initialState.nextID + 1
      ∧ (createJokeHandler (ResponseWriter.unwritten [])
        (postRequest { ID := 0, Setup := "Why?", Punchline := "Because.", Category := "" })
        { jokes := seedJokes, nextID := maxInt, log := [] }).2.nextID = minInt :=
  have t := createJokeHandler_assigns_nextID initialState []
    (postRequest { ID := 0, Setup := "Why?", Punchline := "Because.", Category := "" })
    { ID := 0, Setup := "Why?", Punchline := "Because.", Category := "" }
    rfl rfl (by decide) (by decide)
  have u := createJokeHandler_assigns_nextID
    { jokes := seedJokes, nextID := maxInt, log := [] } []
    (postRequest { ID := 0, Setup := "Why?", Punchline := "Because.", Category := "" })
    { ID := 0, Setup := "Why?", Punchline := "Because.", Category := "" }
    rfl rfl (by decide) (by decide)
  ⟨t.1, t.2.1, t.2.2.1 (by decide), u.2.2.2.1 rfl⟩

/-- Against C1 as stated: in the state with the five seeds and nextID = 9223372036854775807
a valid POST is answered with 201, and afterwards nextID is -9223372036854775808, not the
prior value plus 1. -/
theorem createJokeHandler_counter_wraps_counterexample :
    (createJokeHandler (ResponseWriter.unwritten [])
        (postRequest { ID := 0, Setup := "Why?", Punchline := "Because.", Category := "" })
        { jokes := seedJokes, nextID := 9223372036854775807, log := [] }).1.statusCode = 201
      ∧ (createJokeHandler (ResponseWriter.unwritten [])
        (postRequest { ID := 0, Setup := "Why?", Punchline := "Because.", Category := "" })
        { jokes := seedJokes, nextID := 9223372036854775807, log := [] }).2.nextID
          = -9223372036854775808
      ∧ (createJokeHandler (ResponseWriter.unwritten [])
        (postRequest { ID := 0, Setup := "Why?", Punchline := "Because.", Category := "" })
        { jokes := seedJokes, nextID := 9223372036854775807, log := [] }).2.nextID
          ≠ 9223372036854775807 + 1 :=
  ⟨by decide, by decide, by decide⟩

/-- C10: a POST whose decoded payload has an empty (or missing) setup or punchline is
answered with status 400 and the error envelope, and the state is left exactly as it
was: no joke is appended and nextID is not incremented, so a later valid create still
receives the id that was next before the failed request. -/
theorem createJokeHandler_rejects_missing_fields (s : State)
    (headers : List (String × String)) (r : Request) (payload : Joke)
    (hm : r.Method = MethodPost) (hb : r.Body = some payload)
    (he : payload.Setup = "" ∨ payload.Punchline = "") :
    (createJokeHandler (ResponseWriter.unwritten headers) r s).1.statusCode = 400
      ∧ (createJokeHandler (ResponseWriter.unwritten headers) r s).1.body =
          [Body.errorResponse { Success := false, Error := "Setup and punchline are required" }]
      ∧ (createJokeHandler (ResponseWriter.unwritten headers) r s).2 = s
      ∧ ∀ (headers2 : List (String × String)) (r2 : Request) (payload2 : Joke),
          r2.Method = MethodPost → r2.Body = some payload2 →
          payload2.Setup ≠ "" → payload2.Punchline ≠ "" →
          (createJokeHandler (ResponseWriter.unwritten headers2) r2
              (createJokeHandler (ResponseWriter.unwritten headers) r s).2).1.body =
            [Body.response
              { Success := true, Message := "Joke created successfully",
                Data := Data.joke
                  { ID := s.nextID, Setup := payload2.Setup, Punchline := payload2.Punchline,
                    Category :=
                      if payload2.Category = "" then "general" else payload2.Category } }] := by
  rw [createJokeHandler_invalid (ResponseWriter.unwritten headers) r s payload rfl hm hb he]
  refine ⟨rfl, rfl, rfl, ?_⟩
  intro headers2 r2 payload2 hm2 hb2 hs2 hp2
  rw [createJokeHandler_valid (ResponseWriter.unwritten headers2) r2 s payload2 rfl hm2 hb2 hs2 hp2]
  rfl

/-- C10 on the initial state: a payload without punchline is refused with status 400 and
the state stays the initial state. -/
theorem createJokeHandler_rejects_missing_fields_witness :
    (createJokeHandler (ResponseWriter.unwritten [])
        (postRequest { ID := 0, Setup := "Why?", Punchline := "", Category := "" })
        initialState).1.statusCode = 400
      ∧ (createJokeHandler (ResponseWriter.unwritten [])
        (postRequest { ID := 0, Setup := "Why?", Punchline := "", Category := "" })
        initialState).2 = initialState :=
  have t := createJokeHandler_rejects_missing_fields initialState []
    (postRequest { ID := 0, Setup := "Why?", Punchline := "", Category := "" })
    { ID := 0, Setup := "Why?", Punchline := "", Category := "" }
    rfl rfl (by decide)
  ⟨t.1, t.2.2.1⟩

/-! ## strings.Split -/

theorem splitChars_no_sep (sep : Char) (l : List Char) (h : sep ∉ l) :
    splitChars sep l = [l] := by
  induction l with
  | nil => rfl
  | cons c cs ih =>
    have hc : c ≠ sep := fun e => h (by simp [e])
    have hcs : sep ∉ cs := fun e => h (List.mem_cons_of_mem _ e)
    simp [splitChars, hc, ih hcs]

theorem splitChars_append_sep (sep : Char) (a b : List Char) (h : sep ∉ a) :
    splitChars sep (a ++ sep :: b) = a :: splitChars sep b := by
  induction a with
  | nil => simp [splitChars]
  | cons c cs ih =>
    have hc : c ≠ sep := fun e => h (by simp [e])
    have hcs : sep ∉ cs := fun e => h (List.mem_cons_of_mem _ e)
    simp [splitChars, hc, ih hcs]

theorem splitChars_head (sep : Char) (l : List Char) :
    ∃ rest, splitChars sep l = l.takeWhile (fun c => c ≠ sep) :: rest := by
  induction l with
  | nil => exact ⟨[], rfl⟩
  | cons c cs ih =>
    obtain ⟨rest, hrest⟩ := ih
    by_cases hc : c = sep
    · exact ⟨splitChars sep cs, by simp [splitChars, hc]⟩
    · exact ⟨rest, by simp [splitChars, hc, hrest]⟩

/-- The path elements of `/api/jokes/<x>` when `<x>` has no slash. -/
theorem Split_jokes_path (x : String) (hx : '/' ∉ x.data) :
    Split ("/api/jokes/" ++ x) '/' = ["", "api", "jokes", x] := by
  have e : ("/api/jokes/" ++ x).data
      = [] ++ '/' :: (['a', 'p', 'i'] ++ '/' :: (['j', 'o', 'k', 'e', 's'] ++ '/' :: x.data)) := by
    rw [String.data_append]; rfl
  rw [Split, e, splitChars_append_sep _ _ _ (by decide), splitChars_append_sep _ _ _ (by decide),
    splitChars_append_sep _ _ _ (by decide), splitChars_no_sep _ _ hx]
  rfl

/-- The path elements of `/api/jokes/category/<cat>`: the fifth one is `<cat>` up to its
first slash. -/
theorem Split_category_path (cat : String) :
    ∃ rest, Split ("/api/jokes/category/" ++ cat) '/'
      = "" :: "api" :: "jokes" :: "category"
          :: String.mk (cat.data.takeWhile (fun c => c ≠ '/')) :: rest := by
  have e : ("/api/jokes/category/" ++ cat).data
      = [] ++ '/' :: (['a', 'p', 'i'] ++ '/' :: (['j', 'o', 'k', 'e', 's'] ++ '/'
          :: (['c', 'a', 't', 'e', 'g', 'o', 'r', 'y'] ++ '/' :: cat.data))) := by
    rw [String.data_append]; rfl
  obtain ⟨rest, hrest⟩ := splitChars_head '/' cat.data
  refine ⟨rest.map String.mk, ?_⟩
  rw [Split, e, splitChars_append_sep _ _ _ (by decide), splitChars_append_sep _ _ _ (by decide),
    splitChars_append_sep _ _ _ (by decide), splitChars_append_sep _ _ _ (by decide), hrest]
  rfl

/-! ## strconv.Atoi on decimal renderings -/

theorem digitVal_digitChar (d : Nat) (hd : d < 10) :
    digitVal (Nat.digitChar d) = some d ∧ isDigitChar (Nat.digitChar d) := by
  interval_cases d <;> exact ⟨by decide, by decide⟩

theorem toDigitsCore_spec (fuel : Nat) : ∀ (n : Nat) (ds : List Char), n < fuel →
    ∃ pre : List Char, Nat.toDigitsCore 10 fuel n ds = pre ++ ds ∧ pre ≠ []
      ∧ (∀ c ∈ pre, isDigitChar c)
      ∧ ∀ (rest : List Char) (acc : Nat),
          parseDigits (pre ++ rest) acc = parseDigits rest (acc * 10 ^ pre.length + n) := by
  induction fuel with
  | zero => intro n ds h; omega
  | succ fuel ih =>
    intro n ds h
    have hd := digitVal_digitChar (n % 10) (Nat.mod_lt _ (by decide))
    by_cases hq : n / 10 = 0
    · refine ⟨[Nat.digitChar (n % 10)], ?_, by simp, ?_, ?_⟩
      · simp [Nat.toDigitsCore, hq]
      · intro c hc
        rw [List.mem_singleton] at hc
        rw [hc]; exact hd.2
      · intro rest acc
        have hn : n % 10 = n := by omega
        simp only [List.singleton_append, parseDigits, hd.1, List.length_singleton, pow_one]
        rw [hn]
        rfl
    · have hlt : n / 10 < fuel := by omega
      obtain ⟨pre, h1, h2, h3, h4⟩ := ih (n / 10) (Nat.digitChar (n % 10) :: ds) hlt
      refine ⟨pre ++ [Nat.digitChar (n % 10)], ?_, by simp, ?_, ?_⟩
      · simp [Nat.toDigitsCore, hq, h1]
      · intro c hc
        rcases List.mem_append.1 hc with hc | hc
        · exact h3 c hc
        · rw [List.mem_singleton] at hc
          rw [hc]; exact hd.2
      · intro rest acc
        rw [List.append_assoc, h4]
        simp only [List.singleton_append, parseDigits, hd.1, List.length_append,
          List.length_singleton]
        congr 1
        have := Nat.div_add_mod n 10
        rw [pow_succ]
        nlinarith [Nat.div_add_mod n 10]

/-- The decimal rendering of a natural number is a non-empty run of digits that reads
back as the number. -/
theorem repr_spec (n : Nat) :
    (Nat.repr n).data ≠ [] ∧ (∀ c ∈ (Nat.repr n).data, isDigitChar c)
      ∧ parseUint (Nat.repr n).data = some n := by
  obtain ⟨pre, h1, h2, h3, h4⟩ := toDigitsCore_spec (n + 1) n [] (Nat.lt_succ_self n)
  have e : (Nat.repr n).data = pre := by
    simp [Nat.repr, Nat.toDigits, h1, List.asString]
  rw [e]
  refine ⟨h2, h3, ?_⟩
  have := h4 [] 0
  simp only [List.append_nil, Nat.zero_mul, Nat.zero_add, parseDigits] at this
  cases pre with
  | nil => exact absurd rfl h2
  | cons c cs => exact this

/-- `strconv.Atoi` reads the decimal rendering of `n` back as `n` exactly when `n` is a
value of Go's `int`; out of that range it fails. -/
theorem Atoi_Itoa (n : Int) :
    Atoi (Itoa n) = if minInt ≤ n ∧ n ≤ maxInt then some n else none := by
  cases n with
  | ofNat m =>
    obtain ⟨h1, h2, h3⟩ := repr_spec m
    cases hd : (Nat.repr m).data with
    | nil => exact absurd hd h1
    | cons c cs =>
      have hc : isDigitChar c := h2 c (by rw [hd]; simp)
      have hm : c ≠ '-' := by
        intro e; rw [e] at hc; revert hc; decide
      have hp : c ≠ '+' := by
        intro e; rw [e] at hc; revert hc; decide
      rw [hd] at h3
      have hmin : minInt ≤ (m : Int) := by
        unfold minInt; omega
      simp only [Atoi, Itoa, hd, hm, hp, if_false, h3, Int.ofNat_eq_coe, hmin, true_and]
      by_cases hmax : (m : Int) ≤ maxInt
      · rw [if_neg (not_lt.2 hmax), if_pos hmax]
      · rw [if_pos (not_le.1 hmax), if_neg hmax]
  | negSucc m =>
    obtain ⟨h1, h2, h3⟩ := repr_spec (m + 1)
    have hd : (Itoa (Int.negSucc m)).data = '-' :: (Nat.repr (m + 1)).data := by
      simp [Itoa, String.data_append]
    have e : -((m + 1 : Nat) : Int) = Int.negSucc m := rfl
    have hmax : Int.negSucc m ≤ maxInt := by
      have : Int.negSucc m < 0 := Int.negSucc_lt_zero m
      unfold maxInt; omega
    simp only [Atoi, hd, if_true, h3, e, hmax, and_true]
    by_cases hmin : minInt ≤ Int.negSucc m
    · rw [if_neg (not_lt.2 hmin), if_pos hmin]
    · rw [if_pos (not_le.1 hmin), if_neg hmin]

theorem Itoa_no_slash (n : Int) : '/' ∉ (Itoa n).data := by
  have hnd : ∀ k : Nat, '/' ∉ (Nat.repr k).data := by
    intro k hk
    have := (repr_spec k).2.1 _ hk
    revert this; decide
  cases n with
  | ofNat m => exact hnd m
  | negSucc m =>
    have hd : (Itoa (Int.negSucc m)).data = '-' :: (Nat.repr (m + 1)).data := by
      simp [Itoa, String.data_append]
    rw [hd]
    intro h
    rcases List.mem_cons.1 h with h | h
    · revert h; decide
    · exact hnd _ h

/-! ## The store along a run -/

theorem healthHandler_state (w : ResponseWriter) (r : Request) (s : State) :
    (healthHandler w r s).2 = s := rfl

theorem getAllJokesHandler_state (w : ResponseWriter) (r : Request) (s : State) :
    (getAllJokesHandler w r s).2 = s := rfl

theorem statsHandler_state (w : ResponseWriter) (r : Request) (s : State) :
    (statsHandler w r s).2 = s := rfl

theorem getRandomJokeHandler_state (rnd : Nat) (w : ResponseWriter) (r : Request) (s : State) :
    (getRandomJokeHandler rnd w r s).2 = s := by
  unfold getRandomJokeHandler
  simp only
  split
  · rfl
  · split <;> rfl

theorem getJokeByIDHandler_state (w : ResponseWriter) (r : Request) (s : State) :
    (getJokeByIDHandler w r s).2 = s := by
  unfold getJokeByIDHandler
  simp only
  split
  · rfl
  · split
    · rfl
    · split <;> rfl

theorem getJokesByCategoryHandler_state (w : ResponseWriter) (r : Request) (s : State) :
    (getJokesByCategoryHandler w r s).2 = s := by
  unfold getJokesByCategoryHandler
  simp only
  split <;> rfl

theorem createJokeHandler_state (w : ResponseWriter) (r : Request) (s : State) :
    (createJokeHandler w r s).2 = s
      ∨ ∃ j : Joke, j.ID = s.nextID
          ∧ (createJokeHandler w r s).2
              = { jokes := s.jokes ++ [j], nextID := wrapInt (s.nextID + 1),
                  log := s.log } := by
  unfold createJokeHandler
  simp only
  split
  · exact Or.inl rfl
  · split
    · exact Or.inl rfl
    · split
      · exact Or.inl rfl
      · exact Or.inr ⟨_, rfl, rfl⟩

/-- Every handler leaves the store as it is or appends one joke that takes the counter
as its id and increments the counter. -/
theorem Handler.run_state (h : Handler) (w : ResponseWriter) (r : Request) (s : State) :
    (h.run w r s).2 = s
      ∨ ∃ j : Joke, j.ID = s.nextID
          ∧ (h.run w r s).2
              = { jokes := s.jokes ++ [j], nextID := wrapInt (s.nextID + 1),
                  log := s.log } := by
  cases h with
  | health => exact Or.inl (healthHandler_state w r s)
  | getAllJokes => exact Or.inl (getAllJokesHandler_state w r s)
  | getRandomJoke rnd => exact Or.inl (getRandomJokeHandler_state rnd w r s)
  | getJokeByID => exact Or.inl (getJokeByIDHandler_state w r s)
  | createJoke => exact createJokeHandler_state w r s
  | getJokesByCategory => exact Or.inl (getJokesByCategoryHandler_state w r s)
  | stats => exact Or.inl (statsHandler_state w r s)

theorem StoreInvariant_initial : StoreInvariant initialState :=
  ⟨[], rfl, rfl, rfl⟩

/-- While the slice fits in memory the counter is far from the largest int, so the
increment is exact and the shape of the store is kept. -/
theorem StoreInvariant_append (s : State) (j : Joke) (hj : j.ID = s.nextID)
    (hs : StoreInvariant s) (hlen : (s.jokes ++ [j]).length ≤ maxJokes) :
    StoreInvariant
      { jokes := s.jokes ++ [j], nextID := wrapInt (s.nextID + 1), log := s.log } := by
  obtain ⟨added, h1, h2, h3⟩ := hs
  have hbound : (added.length : Int) + 7 ≤ 164703072086692426 := by
    have hl : (seedJokes ++ added ++ [j]).length ≤ maxJokes := by rw [← h1]; exact hlen
    have hm : maxJokes = 164703072086692425 := by decide
    rw [hm] at hl
    simp only [List.length_append, List.length_singleton, seedJokes, List.length_cons,
      List.length_nil] at hl
    omega
  have hw : wrapInt (s.nextID + 1) = s.nextID + 1 := by
    apply wrapInt_of_fits
    · rw [h3]; unfold minInt; omega
    · rw [h3]; unfold maxInt; omega
  refine ⟨added ++ [j], ?_, ?_, ?_⟩
  · simp [h1]
  · simp only [List.map_append, h2, List.length_append, List.length_singleton, List.range_succ,
      List.map_cons, List.map_nil, hj, h3]
  · show wrapInt (s.nextID + 1) = ((added ++ [j]).length : Int) + 6
    rw [hw, h3, List.length_append, List.length_singleton]
    push_cast
    ring

theorem reachable_invariant {s : State} (h : Reachable s) : StoreInvariant s := by
  induction h with
  | init => exact StoreInvariant_initial
  | step h w r _ hlen ih =>
    rcases Handler.run_state h w r _ with e | ⟨j, hj, e⟩
    · rw [e]; exact ih
    · rw [e] at hlen ⊢
      exact StoreInvariant_append _ j hj ih hlen

/-- The ids in a store of the invariant's shape are exactly the integers from 1 up to
the counter, excluded. -/
theorem StoreInvariant.mem_ids {s : State} (hs : StoreInvariant s) (n : Int) :
    (∃ j ∈ s.jokes, j.ID = n) ↔ 1 ≤ n ∧ n < s.nextID := by
  obtain ⟨added, h1, h2, h3⟩ := hs
  have hadd : (∃ j ∈ added, j.ID = n) ↔ 6 ≤ n ∧ n < s.nextID := by
    have : (∃ j ∈ added, j.ID = n) ↔ n ∈ added.map (fun j => j.ID) := by
      simp [List.mem_map]
    rw [this, h2, h3]
    simp only [List.mem_map, List.mem_range]
    constructor
    · rintro ⟨i, hi, rfl⟩
      omega
    · rintro ⟨h6, hlt⟩
      refine ⟨(n - 6).toNat, ?_, ?_⟩ <;> omega
  have hseed : (∃ j ∈ seedJokes, j.ID = n) ↔ 1 ≤ n ∧ n < 6 := by
    simp only [seedJokes, List.mem_cons, List.mem_singleton, List.mem_nil_iff, or_false]
    constructor
    · rintro ⟨j, hj, rfl⟩
      rcases hj with rfl | rfl | rfl | rfl | rfl <;> decide
    · rintro ⟨h1, h6⟩
      have : n = 1 ∨ n = 2 ∨ n = 3 ∨ n = 4 ∨ n = 5 := by omega
      rcases this with rfl | rfl | rfl | rfl | rfl
      · exact ⟨_, Or.inl rfl, rfl⟩
      · exact ⟨_, Or.inr (Or.inl rfl), rfl⟩
      · exact ⟨_, Or.inr (Or.inr (Or.inl rfl)), rfl⟩
      · exact ⟨_, Or.inr (Or.inr (Or.inr (Or.inl rfl))), rfl⟩
      · exact ⟨_, Or.inr (Or.inr (Or.inr (Or.inr rfl))), rfl⟩
  have hsplit : (∃ j ∈ s.jokes, j.ID = n)
      ↔ (∃ j ∈ seedJokes, j.ID = n) ∨ (∃ j ∈ added, j.ID = n) := by
    rw [h1]
    simp only [List.mem_append]
    constructor
    · rintro ⟨j, hj | hj, e⟩
      · exact Or.inl ⟨j, hj, e⟩
      · exact Or.inr ⟨j, hj, e⟩
    · rintro (⟨j, hj, e⟩ | ⟨j, hj, e⟩)
      · exact ⟨j, Or.inl hj, e⟩
      · exact ⟨j, Or.inr hj, e⟩
  rw [hsplit, hseed, hadd]
  have : (6 : Int) ≤ s.nextID := by rw [h3]; omega
  omega

theorem StoreInvariant.ids_increasing {s : State} (hs : StoreInvariant s) :
    (s.jokes.map (fun j => j.ID)).Pairwise (fun a b => a < b) := by
  obtain ⟨added, h1, h2, _⟩ := hs
  rw [h1, List.map_append, h2, List.pairwise_append]
  refine ⟨by decide, ?_, ?_⟩
  · rw [List.pairwise_map]
    refine List.Pairwise.imp ?_ (List.pairwise_lt_range _)
    intro a b hab
    omega
  · intro a ha b hb
    simp only [List.mem_map, List.mem_range] at hb
    obtain ⟨i, _, rfl⟩ := hb
    have : a ≤ 5 := by
      simp only [seedJokes, List.map_cons, List.map_nil, List.mem_cons, List.mem_singleton,
        List.mem_nil_iff, or_false] at ha
      rcases ha with rfl | rfl | rfl | rfl | rfl <;> decide
    omega

/-- C2: in every state reachable from the initial state by handler invocations with
arbitrary requests, the ids of the stored jokes are positive, pairwise distinct and
strictly increasing in sequence order, every id is below nextID, and the jokes added by
create follow the seeds and carry the ids 6, 7, 8, ... in the order of their creation. -/
theorem reachable_ids_unique_increasing (s : State) (h : Reachable s) :
    (∀ j ∈ s.jokes, 0 < j.ID)
      ∧ (s.jokes.map (fun j => j.ID)).Nodup
      ∧ (s.jokes.map (fun j => j.ID)).Pairwise (fun a b => a < b)
      ∧ (∀ j ∈ s.jokes, j.ID < s.nextID)
      ∧ ∃ added : List Joke, s.jokes = seedJokes ++ added
          ∧ added.map (fun j => j.ID) = (List.range added.length).map (fun (i : Nat) => (i : Int) + 6) := by
  have hs := reachable_invariant h
  have hinc := hs.ids_increasing
  refine ⟨?_, ?_, hinc, ?_, ?_⟩
  · intro j hj
    have := (hs.mem_ids j.ID).1 ⟨j, hj, rfl⟩
    omega
  · exact hinc.imp (fun hab => ne_of_lt hab)
  · intro j hj
    exact ((hs.mem_ids j.ID).1 ⟨j, hj, rfl⟩).2
  · obtain ⟨added, h1, h2, _⟩ := hs
    exact ⟨added, h1, h2⟩

/-- C2 after one create on the initial state: the ids are 1 to 6, below nextID = 7. -/
theorem reachable_ids_unique_increasing_witness :
    Reachable (createJokeHandler ResponseWriter.fresh
        (postRequest { ID := 0, Setup := "Why?", Punchline := "Because.", Category := "" })
        initialState).2
      ∧ ((createJokeHandler ResponseWriter.fresh
        (postRequest { ID := 0, Setup := "Why?", Punchline := "Because.", Category := "" })
        initialState).2.jokes.map (fun j => j.ID)).Pairwise (fun a b => a < b) :=
  ⟨Reachable.step Handler.createJoke _ _ Reachable.init (by decide),
   (reachable_ids_unique_increasing _
      (Reachable.step Handler.createJoke ResponseWriter.fresh
        (postRequest { ID := 0, Setup := "Why?", Punchline := "Because.", Category := "" })
        Reachable.init (by decide))).2.2.1⟩

/-! ## getJokeByIDHandler -/

/-- What `getJokeByIDHandler` does on the path `/api/jokes/<n>`, `<n>` the decimal
rendering of `n`. -/
theorem getJokeByIDHandler_id_path (w : ResponseWriter) (hw : w.status = none) (r : Request)
    (n : Int) (hpath : r.Path = "/api/jokes/" ++ Itoa n) (s : State) :
    getJokeByIDHandler w r s =
      if minInt ≤ n ∧ n ≤ maxInt then
        match s.jokes.find? (fun joke => joke.ID = n) with
        | some joke =>
          ({ header := (w.Set "Content-Type" "application/json").header, status := some 200,
             body := w.body ++ [Body.response
                { Success := true, Message := "", Data := Data.joke joke }] }, s)
        | none =>
          ({ header := (w.Set "Content-Type" "application/json").header, status := some 404,
             body := w.body ++ [Body.errorResponse
                { Success := false, Error := "Joke not found" }] }, s)
      else
        ({ header := (w.Set "Content-Type" "application/json").header, status := some 400,
           body := w.body ++ [Body.errorResponse
              { Success := false, Error := "Invalid ID format" }] }, s) := by
  have hw2 : (w.Set "Content-Type" "application/json").status = none := hw
  unfold getJokeByIDHandler
  simp only [hpath, Split_jokes_path _ (Itoa_no_slash n), List.length_cons, List.length_nil,
    Nat.lt_irrefl, if_false, List.getD_cons_succ, List.getD_cons_zero, Atoi_Itoa]
  by_cases hr : minInt ≤ n ∧ n ≤ maxInt
  · simp only [hr, and_self, if_true]
    cases hf : s.jokes.find? (fun joke => joke.ID = n) with
    | some joke =>
      simp only [encode_unwritten _ _ hw2]
      rfl
    | none =>
      simp only [errorResponse_unwritten _ _ _ hw2]
      rfl
  · simp only [hr, if_false, errorResponse_unwritten _ _ _ hw2]
    rfl

theorem find?_ID_some (jokes : List Joke) (n : Int) (h : ∃ j ∈ jokes, j.ID = n) :
    ∃ j, j ∈ jokes ∧ j.ID = n ∧ jokes.find? (fun joke => joke.ID = n) = some j := by
  cases hf : jokes.find? (fun joke => joke.ID = n) with
  | none =>
    obtain ⟨j, hj, e⟩ := h
    have := List.find?_eq_none.1 hf j hj
    simp [e] at this
  | some j =>
    have h1 := List.find?_some hf
    exact ⟨j, List.mem_of_find?_eq_some hf, by simpa using h1, rfl⟩

theorem find?_ID_none (jokes : List Joke) (n : Int) (h : ¬ ∃ j ∈ jokes, j.ID = n) :
    jokes.find? (fun joke => joke.ID = n) = none := by
  rw [List.find?_eq_none]
  intro j hj
  simp only [decide_eq_true_eq]
  exact fun e => h ⟨j, hj, e⟩

/-- C3 (amended): in every state reachable from the initial state and for every integer n
that is a value of Go's int, getJokeByIDHandler on the path /api/jokes/<n> answers with
status 200 and a success envelope whose data is the stored joke with id n when
1 <= n < nextID, and with status 404 and the error envelope "Joke not found" otherwise;
for an integer outside the range of Go's int it answers with status 400 and the error
envelope "Invalid ID format".  The state is unchanged in every case. -/
theorem getJokeByIDHandler_found_iff_assigned (s : State) (h : Reachable s)
    (headers : List (String × String)) (n : Int) :
    (minInt ≤ n ∧ n ≤ maxInt →
        ((1 ≤ n ∧ n < s.nextID) →
          ∃ j ∈ s.jokes, j.ID = n
            ∧ (getJokeByIDHandler (ResponseWriter.unwritten headers)
                (getRequest ("/api/jokes/" ++ Itoa n)) s).1.statusCode = 200
            ∧ (getJokeByIDHandler (ResponseWriter.unwritten headers)
                (getRequest ("/api/jokes/" ++ Itoa n)) s).1.body
                = [Body.response { Success := true, Message := "", Data := Data.joke j }]
            ∧ (getJokeByIDHandler (ResponseWriter.unwritten headers)
                (getRequest ("/api/jokes/" ++ Itoa n)) s).2 = s)
        ∧ (¬ (1 ≤ n ∧ n < s.nextID) →
          (getJokeByIDHandler (ResponseWriter.unwritten headers)
              (getRequest ("/api/jokes/" ++ Itoa n)) s).1.statusCode = 404
            ∧ (getJokeByIDHandler (ResponseWriter.unwritten headers)
                (getRequest ("/api/jokes/" ++ Itoa n)) s).1.body
                = [Body.errorResponse { Success := false, Error := "Joke not found" }]
            ∧ (getJokeByIDHandler (ResponseWriter.unwritten headers)
                (getRequest ("/api/jokes/" ++ Itoa n)) s).2 = s))
      ∧ (¬ (minInt ≤ n ∧ n ≤ maxInt) →
          (getJokeByIDHandler (ResponseWriter.unwritten headers)
              (getRequest ("/api/jokes/" ++ Itoa n)) s).1.statusCode = 400
            ∧ (getJokeByIDHandler (ResponseWriter.unwritten headers)
                (getRequest ("/api/jokes/" ++ Itoa n)) s).1.body
                = [Body.errorResponse { Success := false, Error := "Invalid ID format" }]
            ∧ (getJokeByIDHandler (ResponseWriter.unwritten headers)
                (getRequest ("/api/jokes/" ++ Itoa n)) s).2 = s) := by
  have hs := reachable_invariant h
  rw [getJokeByIDHandler_id_path (ResponseWriter.unwritten headers) rfl
    (getRequest ("/api/jokes/" ++ Itoa n)) n rfl s]
  refine ⟨fun hr => ⟨fun hn => ?_, fun hn => ?_⟩, fun hr => ?_⟩
  · obtain ⟨j, hj, hid, hf⟩ := find?_ID_some s.jokes n ((hs.mem_ids n).2 hn)
    refine ⟨j, hj, hid, ?_⟩
    rw [if_pos hr, hf]
    exact ⟨rfl, rfl, rfl⟩
  · rw [if_pos hr, find?_ID_none s.jokes n (fun hex => hn ((hs.mem_ids n).1 hex))]
    exact ⟨rfl, rfl, rfl⟩
  · rw [if_neg hr]
    exact ⟨rfl, rfl, rfl⟩

/-- C3 (amended) on the initial state: /api/jokes/3 is answered with 200, /api/jokes/999
with 404 and /api/jokes/9223372036854775808 with 400. -/
theorem getJokeByIDHandler_found_iff_assigned_witness :
    (getJokeByIDHandler (ResponseWriter.unwritten [])
        (getRequest ("/api/jokes/" ++ Itoa 3)) initialState).1.statusCode = 200
      ∧ (getJokeByIDHandler (ResponseWriter.unwritten [])
          (getRequest ("/api/jokes/" ++ Itoa 999)) initialState).1.statusCode = 404
      ∧ (getJokeByIDHandler (ResponseWriter.unwritten [])
          (getRequest ("/api/jokes/" ++ Itoa 9223372036854775808)) initialState).1.statusCode
          = 400 :=
  ⟨match ((getJokeByIDHandler_found_iff_assigned initialState Reachable.init [] 3).1
        (by decide)).1 (by decide) with
    | ⟨_, _, _, hst, _⟩ => hst,
   (((getJokeByIDHandler_found_iff_assigned initialState Reachable.init [] 999).1
        (by decide)).2 (by decide)).1,
   ((getJokeByIDHandler_found_iff_assigned initialState Reachable.init []
        9223372036854775808).2 (by decide)).1⟩

/-- Against C3 as stated: 9223372036854775808 was never assigned, yet on the initial state
the path /api/jokes/9223372036854775808 is not answered with 404 "Joke not found" but with
400 "Invalid ID format". -/
theorem getJokeByIDHandler_out_of_range_counterexample :
    Reachable initialState
      ∧ ¬ (1 ≤ (9223372036854775808 : Int) ∧ (9223372036854775808 : Int) < initialState.nextID)
      ∧ "/api/jokes/" ++ Itoa 9223372036854775808 = "/api/jokes/9223372036854775808"
      ∧ (getJokeByIDHandler (ResponseWriter.unwritten [])
          (getRequest ("/api/jokes/" ++ Itoa 9223372036854775808)) initialState).1.statusCode
          = 400
      ∧ (getJokeByIDHandler (ResponseWriter.unwritten [])
          (getRequest ("/api/jokes/" ++ Itoa 9223372036854775808)) initialState).1.body
          = [Body.errorResponse { Success := false, Error := "Invalid ID format" }]
      ∧ (getJokeByIDHandler (ResponseWriter.unwritten [])
          (getRequest ("/api/jokes/" ++ Itoa 9223372036854775808)) initialState).1.statusCode
          ≠ 404 :=
  ⟨Reachable.init, by decide, by decide, by decide, by decide, by decide⟩

/-! ## Create, then get -/

theorem runAll_jokes (steps : List (Handler × ResponseWriter × Request)) :
    ∀ s : State, ∃ extra : List Joke, (runAll steps s).jokes = s.jokes ++ extra := by
  induction steps with
  | nil => intro s; exact ⟨[], by simp [runAll]⟩
  | cons a rest ih =>
    intro s
    obtain ⟨hd, w, r⟩ := a
    obtain ⟨extra, he⟩ := ih (hd.run w r s).2
    rcases Handler.run_state hd w r s with e | ⟨j, _, e⟩
    · exact ⟨extra, by rw [runAll, he, e]⟩
    · exact ⟨j :: extra, by rw [runAll, he, e]; simp⟩

/-- C5: from a reachable state (whose counter is a value of Go's int), creating a joke
from the payload {setup: S, punchline: P} with S and P non-empty and no category returns
a joke with id k = nextID, and getJokeByIDHandler on /api/jokes/<k>, applied right away or
after any further handler invocations (further creates among them), answers with status
200 and the joke with id k, setup S, punchline P and category "general". -/
theorem create_then_get_round_trip (s : State) (h : Reachable s) (S P : String)
    (hS : S ≠ "") (hP : P ≠ "") (hfit : s.nextID ≤ maxInt) (payloadID : Int)
    (headers headers2 : List (String × String))
    (later : List (Handler × ResponseWriter × Request)) :
    (createJokeHandler (ResponseWriter.unwritten headers)
        (postRequest { ID := payloadID, Setup := S, Punchline := P, Category := "" }) s).1.body
        = [Body.response
            { Success := true, Message := "Joke created successfully",
              Data := Data.joke
                { ID := s.nextID, Setup := S, Punchline := P, Category := "general" } }]
      ∧ (getJokeByIDHandler (ResponseWriter.unwritten headers2)
          (getRequest ("/api/jokes/" ++ Itoa s.nextID))
          (runAll later (createJokeHandler (ResponseWriter.unwritten headers)
            (postRequest { ID := payloadID, Setup := S, Punchline := P, Category := "" })
            s).2)).1.statusCode = 200
      ∧ (getJokeByIDHandler (ResponseWriter.unwritten headers2)
          (getRequest ("/api/jokes/" ++ Itoa s.nextID))
          (runAll later (createJokeHandler (ResponseWriter.unwritten headers)
            (postRequest { ID := payloadID, Setup := S, Punchline := P, Category := "" })
            s).2)).1.body
          = [Body.response
              { Success := true, Message := "",
                Data := Data.joke
                  { ID := s.nextID, Setup := S, Punchline := P, Category := "general" } }] := by
  have hs := reachable_invariant h
  have hc := createJokeHandler_valid (ResponseWriter.unwritten headers)
    (postRequest { ID := payloadID, Setup := S, Punchline := P, Category := "" }) s
    { ID := payloadID, Setup := S, Punchline := P, Category := "" } rfl rfl rfl hS hP
  have hj : createdJoke s.nextID { ID := payloadID, Setup := S, Punchline := P, Category := "" }
      = { ID := s.nextID, Setup := S, Punchline := P, Category := "general" } := by
    simp [createdJoke]
  rw [hj] at hc
  rw [hc]
  refine ⟨rfl, ?_⟩
  obtain ⟨extra, he⟩ := runAll_jokes later
    { jokes := s.jokes ++ [{ ID := s.nextID, Setup := S, Punchline := P, Category := "general" }],
      nextID := wrapInt (s.nextID + 1), log := s.log }
  have hlow : 6 ≤ s.nextID := by
    obtain ⟨added, _, _, h3⟩ := hs
    rw [h3]; omega
  have hrange : minInt ≤ s.nextID ∧ s.nextID ≤ maxInt := by
    refine ⟨?_, hfit⟩
    unfold minInt; omega
  have hnot : s.jokes.find? (fun joke => joke.ID = s.nextID) = none := by
    apply find?_ID_none
    intro hex
    have := (hs.mem_ids s.nextID).1 hex
    omega
  have hfind : (runAll later
      { jokes := s.jokes ++
          [{ ID := s.nextID, Setup := S, Punchline := P, Category := "general" }],
        nextID := wrapInt (s.nextID + 1), log := s.log }).jokes.find? (fun joke => joke.ID = s.nextID)
      = some { ID := s.nextID, Setup := S, Punchline := P, Category := "general" } := by
    rw [he]
    simp [List.find?_append, hnot]
  rw [getJokeByIDHandler_id_path (ResponseWriter.unwritten headers2) rfl _ s.nextID rfl,
    if_pos hrange, hfind]
  exact ⟨rfl, rfl⟩

/-- C5 on the initial state: the joke created from {setup: "Why?", punchline: "Because."}
gets the id 6 and is found under /api/jokes/6 after a further create. -/
theorem create_then_get_round_trip_witness :
    Reachable initialState ∧ initialState.nextID ≤ maxInt
      ∧ (getJokeByIDHandler (ResponseWriter.unwritten [])
          (getRequest ("/api/jokes/" ++ Itoa initialState.nextID))
          (runAll
            [(Handler.createJoke, ResponseWriter.fresh,
              postRequest { ID := 0, Setup := "Knock", Punchline := "Who?", Category := "x" })]
            (createJokeHandler (ResponseWriter.unwritten [])
              (postRequest { ID := 0, Setup := "Why?", Punchline := "Because.", Category := "" })
              initialState).2)).1.body
          = [Body.response
              { Success := true, Message := "",
                Data := Data.joke
                  { ID := initialState.nextID, Setup := "Why?", Punchline := "Because.",
                    Category := "general" } }] :=
  ⟨Reachable.init, by decide,
   (create_then_get_round_trip initialState Reachable.init "Why?" "Because."
      (by decide) (by decide) (by decide) 0 [] []
      [(Handler.createJoke, ResponseWriter.fresh,
        postRequest { ID := 0, Setup := "Knock", Punchline := "Who?", Category := "x" })]).2.2⟩

/-! ## getJokesByCategoryHandler -/

theorem firstSegment_no_slash (cat : String) (h : '/' ∉ cat.data) : firstSegment cat = cat := by
  have : cat.data.takeWhile (fun c => c ≠ '/') = cat.data := by
    rw [List.takeWhile_eq_self_iff]
    intro c hc
    have : c ≠ '/' := fun e => h (e ▸ hc)
    simpa using this
  rw [firstSegment, this]

/-- What `getJokesByCategoryHandler` does on a path `/api/jokes/category/<cat>`. -/
theorem getJokesByCategoryHandler_category_path (w : ResponseWriter) (hw : w.status = none)
    (r : Request) (cat : String) (hpath : r.Path = "/api/jokes/category/" ++ cat) (s : State) :
    getJokesByCategoryHandler w r s =
      ({ header := (w.Set "Content-Type" "application/json").header, status := some 200,
         body := w.body ++ [Body.response
            { Success := true,
              Message := "Found "
                ++ Itoa (s.jokes.filter (fun joke => joke.Category = firstSegment cat)).length
                ++ " jokes in category \x27" ++ firstSegment cat ++ "\x27",
              Data := Data.jokes
                (s.jokes.filter (fun joke => joke.Category = firstSegment cat)) }] }, s) := by
  have hw2 : (w.Set "Content-Type" "application/json").status = none := hw
  obtain ⟨rest, hrest⟩ := Split_category_path cat
  unfold getJokesByCategoryHandler
  simp only [hpath, hrest, List.length_cons, List.getD_cons_succ, List.getD_cons_zero,
    encode_unwritten _ _ hw2]
  rw [if_neg (by omega)]
  rfl

/-- C4 (amended): on every state and every path /api/jokes/category/<cat>,
getJokesByCategoryHandler answers with status 200 and a success envelope, never an error,
and its data is exactly the subsequence of the stored jokes, in insertion order, whose
category equals the part of <cat> before its first slash, which is <cat> itself when
<cat> contains no slash; with no match the data is the empty sequence; the state is
unchanged.  On the initial state with <cat> = "languages" the data is exactly the seeded
joke with id 3. -/
theorem getJokesByCategoryHandler_filters_by_segment (s : State)
    (headers : List (String × String)) (cat : String) :
    (getJokesByCategoryHandler (ResponseWriter.unwritten headers)
        (getRequest ("/api/jokes/category/" ++ cat)) s).1.statusCode = 200
      ∧ (getJokesByCategoryHandler (ResponseWriter.unwritten headers)
          (getRequest ("/api/jokes/category/" ++ cat)) s).1.body
          = [Body.response
              { Success := true,
                Message := "Found "
                  ++ Itoa (s.jokes.filter (fun joke => joke.Category = firstSegment cat)).length
                  ++ " jokes in category \x27" ++ firstSegment cat ++ "\x27",
                Data := Data.jokes
                  (s.jokes.filter (fun joke => joke.Category = firstSegment cat)) }]
      ∧ (getJokesByCategoryHandler (ResponseWriter.unwritten headers)
          (getRequest ("/api/jokes/category/" ++ cat)) s).2 = s
      ∧ ('/' ∉ cat.data →
          (getJokesByCategoryHandler (ResponseWriter.unwritten headers)
            (getRequest ("/api/jokes/category/" ++ cat)) s).1.body
            = [Body.response
                { Success := true,
                  Message := "Found "
                    ++ Itoa (s.jokes.filter (fun joke => joke.Category = cat)).length
                    ++ " jokes in category \x27" ++ cat ++ "\x27",
                  Data := Data.jokes (s.jokes.filter (fun joke => joke.Category = cat)) }])
      ∧ (getJokesByCategoryHandler (ResponseWriter.unwritten headers)
          (getRequest ("/api/jokes/category/" ++ "languages")) initialState).1.body
          = [Body.response
              { Success := true, Message := "Found 1 jokes in category \x27languages\x27",
                Data := Data.jokes
                  [{ ID := 3, Setup := "Why do Java developers wear glasses?",
                     Punchline := "Because they don\x27t C#!", Category := "languages" }] }] := by
  have e := fun c st => getJokesByCategoryHandler_category_path
    (ResponseWriter.unwritten headers) rfl (getRequest ("/api/jokes/category/" ++ c)) c rfl st
  refine ⟨?_, ?_, ?_, ?_, ?_⟩
  · rw [e]; rfl
  · rw [e]; rfl
  · rw [e]
  · intro h
    rw [e, firstSegment_no_slash cat h]; rfl
  · have aux : Body.response
        { Success := true,
          Message := "Found "
            ++ Itoa (initialState.jokes.filter
                (fun joke => joke.Category = firstSegment "languages")).length
            ++ " jokes in category \x27" ++ firstSegment "languages" ++ "\x27",
          Data := Data.jokes
            (initialState.jokes.filter (fun joke => joke.Category = firstSegment "languages")) }
        = Body.response
          { Success := true, Message := "Found 1 jokes in category \x27languages\x27",
            Data := Data.jokes
              [{ ID := 3, Setup := "Why do Java developers wear glasses?",
                 Punchline := "Because they don\x27t C#!", Category := "languages" }] } := by
      decide
    rw [e]
    exact congrArg (fun b => [b]) aux

/-- C4 (amended) on the initial state with <cat> = "general": the four seeded jokes of
that category, in order. -/
theorem getJokesByCategoryHandler_filters_by_segment_witness :
    '/' ∉ "general".data
      ∧ (getJokesByCategoryHandler (ResponseWriter.unwritten [])
          (getRequest ("/api/jokes/category/" ++ "general")) initialState).1.body
          = [Body.response
              { Success := true,
                Message := "Found "
                  ++ Itoa (initialState.jokes.filter
                      (fun joke => joke.Category = "general")).length
                  ++ " jokes in category \x27" ++ "general" ++ "\x27",
                Data := Data.jokes
                  (initialState.jokes.filter (fun joke => joke.Category = "general")) }] :=
  ⟨by decide,
   (getJokesByCategoryHandler_filters_by_segment initialState [] "general").2.2.2.1
      (by decide)⟩

/-- Against C4 as stated: the category route matches /api/jokes/category/general/extra;
no stored joke has the category "general/extra", yet on the initial state the data is not
empty: it holds the four jokes of the category "general". -/
theorem getJokesByCategoryHandler_slash_counterexample :
    initialState.jokes.filter (fun joke => joke.Category = "general/extra") = []
      ∧ (getJokesByCategoryHandler (ResponseWriter.unwritten [])
          (getRequest ("/api/jokes/category/" ++ "general/extra")) initialState).1.body
          = [Body.response
              { Success := true, Message := "Found 4 jokes in category \x27general\x27",
                Data := Data.jokes
                  (initialState.jokes.filter (fun joke => joke.Category = "general")) }]
      ∧ (initialState.jokes.filter (fun joke => joke.Category = "general")).length = 4
      ∧ (serve 0 ResponseWriter.fresh
          (getRequest ("/api/jokes/category/" ++ "general/extra")) initialState).1.body
          = [Body.response
              { Success := true, Message := "Found 4 jokes in category \x27general\x27",
                Data := Data.jokes
                  (initialState.jokes.filter (fun joke => joke.Category = "general")) }] :=
  ⟨by decide, by decide, by decide, by decide⟩

/-! ## The routes of main -/

theorem ne_of_index (p q : String) (i : Nat) (h : p.data[i]? ≠ q.data[i]?) : p ≠ q :=
  fun e => h (by rw [e])

theorem data_index_append_left (a b : String) (i : Nat) (h : i < a.data.length) :
    (a ++ b).data[i]? = a.data[i]? := by
  rw [String.data_append, List.getElem?_append_left h]

theorem not_isPrefixOf_of_index (p q : List Char) (i : Nat) (hi : i < p.length)
    (h : p[i]? ≠ q[i]?) : p.isPrefixOf q = false := by
  cases hp : p.isPrefixOf q with
  | false => rfl
  | true =>
    exfalso
    apply h
    obtain ⟨t, ht⟩ := List.isPrefixOf_iff_prefix.1 hp
    rw [← ht, List.getElem?_append_left hi]

/-- The decimal rendering of an integer starts with a digit or with the minus sign. -/
theorem Itoa_head (n : Int) :
    ∃ c rest, (Itoa n).data = c :: rest ∧ (isDigitChar c ∨ c = '-') := by
  cases n with
  | ofNat m =>
    obtain ⟨h1, h2, _⟩ := repr_spec m
    cases hd : (Nat.repr m).data with
    | nil => exact absurd hd h1
    | cons c cs => exact ⟨c, cs, hd, Or.inl (h2 c (by rw [hd]; simp))⟩
  | negSucc m =>
    exact ⟨'-', (Nat.repr (m + 1)).data, by simp [Itoa, String.data_append], Or.inr rfl⟩

/-- Of the patterns of `main` only `/api/jokes/category/` names a subtree. -/
theorem longestSubtree_routes (rnd : Nat) (path : String) :
    (routes rnd).longestSubtree path
      = if "/api/jokes/category/".data.isPrefixOf path.data = true then
          some ("/api/jokes/category/",
            chainMiddleware getJokesByCategoryHandler [loggingMiddleware, corsMiddleware])
        else none := by
  have h1 : isSubtreePattern "/health" = false := by decide
  have h2 : isSubtreePattern "/api/jokes" = false := by decide
  have h3 : isSubtreePattern "/api/jokes/random" = false := by decide
  have h4 : isSubtreePattern "/api/jokes/category/" = true := by decide
  have h5 : isSubtreePattern "/api/stats" = false := by decide
  simp only [ServeMux.longestSubtree, routes, List.foldl, h1, h2, h3, h4, h5, Bool.false_and,
    Bool.true_and, Bool.false_eq_true, if_false]

/-- The pattern lookup of the routes of `main` for a path that is none of the
patterns. -/
theorem findHandler_routes_of_ne (rnd : Nat) (path : String)
    (a1 : "/health" ≠ path) (a2 : "/api/jokes" ≠ path) (a3 : "/api/jokes/random" ≠ path)
    (a4 : "/api/jokes/category/" ≠ path) (a5 : "/api/stats" ≠ path) :
    (routes rnd).findHandler path
      = if "/api/jokes/category/".data.isPrefixOf path.data = true then
          some (chainMiddleware getJokesByCategoryHandler [loggingMiddleware, corsMiddleware])
        else none := by
  have hfind : (routes rnd).entries.find? (fun e => e.1 = path) = none := by
    simp [routes, List.find?, a1, a2, a3, a4, a5]
  rw [ServeMux.findHandler, hfind, longestSubtree_routes]
  by_cases hp : "/api/jokes/category/".data.isPrefixOf path.data = true
  · simp only [hp, if_true, Option.map]
  · simp only [hp, if_false, Option.map]
    rfl

theorem registered_routes_of_ne (rnd : Nat) (path : String)
    (a1 : "/health" ≠ path) (a2 : "/api/jokes" ≠ path) (a3 : "/api/jokes/random" ≠ path)
    (a4 : "/api/jokes/category/" ≠ path) (a5 : "/api/stats" ≠ path) :
    (routes rnd).registered path = false := by
  simp [ServeMux.registered, routes, a1, a2, a3, a4, a5]

/-- The mux has no pattern for `/api/jokes/<n>`: `/api/jokes` is registered without a
trailing slash, so it matches that one path only. -/
theorem ServeHTTP_id_path (rnd : Nat) (w : ResponseWriter) (r : Request) (n : Int)
    (hpath : r.Path = "/api/jokes/" ++ Itoa n) (s : State) :
    serve rnd w r s = NotFound w r s := by
  obtain ⟨c, rest, hc, hcd⟩ := Itoa_head n
  have e11 : "/api/jokes/".data = ['/', 'a', 'p', 'i', '/', 'j', 'o', 'k', 'e', 's', '/'] := rfl
  have hc11 : ("/api/jokes/" ++ Itoa n).data[11]? = some c := by
    rw [String.data_append, hc, e11]; simp
  have hs11 : (("/api/jokes/" ++ Itoa n) ++ "/").data[11]? = some c := by
    rw [data_index_append_left _ _ _ (by rw [String.data_append, hc, e11]; simp), hc11]
  have hr : c ≠ 'r' := by rintro rfl; revert hcd; decide
  have hcc : c ≠ 'c' := by rintro rfl; revert hcd; decide
  have n1 : "/health".data[11]? = none := by decide
  have n2 : "/api/jokes".data[11]? = none := by decide
  have n3 : "/api/jokes/random".data[11]? = some 'r' := by decide
  have n4 : "/api/jokes/category/".data[11]? = some 'c' := by decide
  have n5 : "/api/stats".data[11]? = none := by decide
  have key : ∀ q : String, q.data[11]? = some c →
      "/health" ≠ q ∧ "/api/jokes" ≠ q ∧ "/api/jokes/random" ≠ q
        ∧ "/api/jokes/category/" ≠ q ∧ "/api/stats" ≠ q := by
    intro q hq
    refine ⟨?_, ?_, ?_, ?_, ?_⟩ <;> apply ne_of_index _ _ 11 <;> rw [hq]
    · rw [n1]; exact fun e => Option.noConfusion e
    · rw [n2]; exact fun e => Option.noConfusion e
    · rw [n3]; intro e; exact hr (Option.some.inj e).symm
    · rw [n4]; intro e; exact hcc (Option.some.inj e).symm
    · rw [n5]; exact fun e => Option.noConfusion e
  obtain ⟨a1, a2, a3, a4, a5⟩ := key _ hc11
  obtain ⟨b1, b2, b3, b4, b5⟩ := key _ hs11
  have hnp : ("/api/jokes/category/".data).isPrefixOf ("/api/jokes/" ++ Itoa n).data = false := by
    apply not_isPrefixOf_of_index _ _ 11 (by decide)
    rw [hc11, n4]
    intro e; exact hcc (Option.some.inj e).symm
  have hclean : isCleanPath ("/api/jokes/" ++ Itoa n) = true := by
    have hd : ∀ t : List Char, Itoa n ≠ String.mk ('.' :: t) := by
      intro t e
      have := congrArg String.data e
      rw [hc] at this
      have hc2 : c = '.' := (List.cons.inj this).1
      rw [hc2] at hcd; revert hcd; decide
    have hd1 : Itoa n ≠ "." := hd []
    have hd2 : Itoa n ≠ ".." := hd ['.']
    simp [isCleanPath, Split_jokes_path _ (Itoa_no_slash n), hd1, hd2]
  have hredir : (routes rnd).redirectToPathSlash ("/api/jokes/" ++ Itoa n) = false := by
    rw [ServeMux.redirectToPathSlash, registered_routes_of_ne rnd _ b1 b2 b3 b4 b5]
    simp
  have hf : (routes rnd).findHandler ("/api/jokes/" ++ Itoa n) = none := by
    rw [findHandler_routes_of_ne rnd _ a1 a2 a3 a4 a5, hnp]
    rfl
  simp only [serve, ServeMux.ServeHTTP, hpath, hredir, hclean, hf]
  simp

/-- C6 (the code departs from the claim): for every integer n and every state the
request GET /api/jokes/<n>, sent through the routes of main, is not handed to jokesRouter
or getJokeByIDHandler: no registered pattern matches the path, the mux answers with its
own plain-text 404 and nothing is logged.  On the initial state GET /api/jokes/999 thus
yields the body "404 page not found", where getJokeByIDHandler would have written the
error envelope "Joke not found". -/
theorem serve_jokes_id_unrouted (rnd : Nat) (n : Int) (s : State) :
    (serve rnd ResponseWriter.fresh (getRequest ("/api/jokes/" ++ Itoa n)) s).1.statusCode = 404
      ∧ (serve rnd ResponseWriter.fresh (getRequest ("/api/jokes/" ++ Itoa n)) s).1.body
          = [Body.text "404 page not found\n"]
      ∧ (serve rnd ResponseWriter.fresh (getRequest ("/api/jokes/" ++ Itoa n)) s).1.Get
          "Content-Type" = some "text/plain; charset=utf-8"
      ∧ (serve rnd ResponseWriter.fresh (getRequest ("/api/jokes/" ++ Itoa n)) s).2 = s
      ∧ (serve rnd ResponseWriter.fresh (getRequest ("/api/jokes/" ++ Itoa 999))
          initialState).1.body = [Body.text "404 page not found\n"]
      ∧ (getJokeByIDHandler ResponseWriter.fresh (getRequest ("/api/jokes/" ++ Itoa 999))
          initialState).1.body
          = [Body.errorResponse { Success := false, Error := "Joke not found" }] := by
  have e := fun m st => ServeHTTP_id_path rnd ResponseWriter.fresh
    (getRequest ("/api/jokes/" ++ Itoa m)) m rfl st
  rw [e n s, e 999 initialState]
  exact ⟨rfl, rfl, rfl, rfl, rfl, by decide⟩

/-! ## Methods the endpoint table does not list -/

theorem logging_cors_eq (H : HandlerFunc) (w : ResponseWriter) (r : Request) (s : State)
    (hm : r.Method ≠ "OPTIONS") :
    chainMiddleware H [loggingMiddleware, corsMiddleware] w r s
      = ((H (withCORS w) r
            { s with log := s.log ++ [LogLine.request r.Method r.Path r.RemoteAddr] }).1,
         { (H (withCORS w) r
            { s with log := s.log ++ [LogLine.request r.Method r.Path r.RemoteAddr] }).2 with
           log := (H (withCORS w) r
            { s with log := s.log ++ [LogLine.request r.Method r.Path r.RemoteAddr] }).2.log
              ++ [LogLine.completed] }) := by
  show loggingMiddleware (corsMiddleware H) w r s = _
  simp only [loggingMiddleware, corsMiddleware_other H _ r _ hm]

theorem logging_cors_options (H : HandlerFunc) (w : ResponseWriter) (r : Request) (s : State)
    (hm : r.Method = "OPTIONS") :
    (chainMiddleware H [loggingMiddleware, corsMiddleware] w r s).1
      = (withCORS w).WriteHeader StatusOK := by
  show (loggingMiddleware (corsMiddleware H) w r s).1 = _
  simp only [loggingMiddleware, corsMiddleware_options H _ r _ hm]

/-- The requests for `/health` and for `/api/stats` reach their handlers behind the two
middlewares, whatever the method. -/
theorem serve_health_stats (rnd : Nat) (w : ResponseWriter) (r : Request) (s : State) :
    (r.Path = "/health" →
        serve rnd w r s
          = chainMiddleware healthHandler [loggingMiddleware, corsMiddleware] w r s)
      ∧ (r.Path = "/api/stats" →
        serve rnd w r s
          = chainMiddleware statsHandler [loggingMiddleware, corsMiddleware] w r s) := by
  constructor
  · intro hpath
    have hredir : (routes rnd).redirectToPathSlash "/health" = false := rfl
    have hclean : isCleanPath "/health" = true := by decide
    have hfind : (routes rnd).findHandler "/health"
        = some (chainMiddleware healthHandler [loggingMiddleware, corsMiddleware]) := rfl
    simp only [serve, ServeMux.ServeHTTP, hpath, hredir, hclean, hfind]
    simp
  · intro hpath
    have hredir : (routes rnd).redirectToPathSlash "/api/stats" = false := rfl
    have hclean : isCleanPath "/api/stats" = true := by decide
    have hfind : (routes rnd).findHandler "/api/stats"
        = some (chainMiddleware statsHandler [loggingMiddleware, corsMiddleware]) := rfl
    simp only [serve, ServeMux.ServeHTTP, hpath, hredir, hclean, hfind]
    simp

/-- C7 (the code departs from the claim): healthHandler, statsHandler,
getRandomJokeHandler and getJokesByCategoryHandler never look at the method.  Through the
routes of main, in every state, a request for /health is answered with status 200 whatever
its method, with the body of the health check unless the method is OPTIONS, and a request
for /api/stats is answered with status 200 whatever its method; on the initial state
POST /health, POST /api/stats, DELETE /api/jokes/random and
POST /api/jokes/category/general are answered with 200, not with 405, while
PUT /api/jokes, which passes through jokesRouter, is answered with status 405 and the
error envelope "Method not allowed". -/
theorem serve_unlisted_method_answered (rnd : Nat) (s : State) (method remoteAddr : String)
    (body : Option Joke) :
    (serve rnd ResponseWriter.fresh
        { Method := method, Path := "/health", RemoteAddr := remoteAddr, Body := body }
        s).1.statusCode = 200
      ∧ (serve rnd ResponseWriter.fresh
          { Method := method, Path := "/health", RemoteAddr := remoteAddr, Body := body }
          s).1.body
          = (if method = "OPTIONS" then []
             else [Body.response
                { Success := true, Message := "API is running",
                  Data := Data.strMap [("status", "healthy"), ("version", "1.0.0")] }])
      ∧ (serve rnd ResponseWriter.fresh
          { Method := method, Path := "/api/stats", RemoteAddr := remoteAddr, Body := body }
          s).1.statusCode = 200
      ∧ (serve 0 ResponseWriter.fresh
          { Method := "POST", Path := "/health", RemoteAddr := "", Body := none }
          initialState).1.statusCode = 200
      ∧ (serve 0 ResponseWriter.fresh
          { Method := "POST", Path := "/api/stats", RemoteAddr := "", Body := none }
          initialState).1.statusCode = 200
      ∧ (serve 0 ResponseWriter.fresh
          { Method := "DELETE", Path := "/api/jokes/random", RemoteAddr := "", Body := none }
          initialState).1.statusCode = 200
      ∧ (serve 0 ResponseWriter.fresh
          { Method := "POST", Path := "/api/jokes/category/general", RemoteAddr := "",
            Body := none }
          initialState).1.statusCode = 200
      ∧ (serve 0 ResponseWriter.fresh
          { Method := "PUT", Path := "/api/jokes", RemoteAddr := "", Body := none }
          initialState).1.statusCode = 405
      ∧ (serve 0 ResponseWriter.fresh
          { Method := "PUT", Path := "/api/jokes", RemoteAddr := "", Body := none }
          initialState).1.body
          = [Body.errorResponse { Success := false, Error := "Method not allowed" }] := by
  have eh := (serve_health_stats rnd ResponseWriter.fresh
    { Method := method, Path := "/health", RemoteAddr := remoteAddr, Body := body } s).1 rfl
  have es := (serve_health_stats rnd ResponseWriter.fresh
    { Method := method, Path := "/api/stats", RemoteAddr := remoteAddr, Body := body } s).2 rfl
  rw [eh, es]
  refine ⟨?_, ?_, ?_, by decide, by decide, by decide, by decide, by decide, by decide⟩
  · by_cases hm : method = "OPTIONS"
    · rw [logging_cors_options _ _ _ _ hm]; rfl
    · rw [logging_cors_eq _ _ _ _ hm]; rfl
  · by_cases hm : method = "OPTIONS"
    · rw [logging_cors_options _ _ _ _ hm, if_pos hm]; rfl
    · rw [logging_cors_eq _ _ _ _ hm, if_neg hm]; rfl
  · by_cases hm : method = "OPTIONS"
    · rw [logging_cors_options _ _ _ _ hm]; rfl
    · rw [logging_cors_eq _ _ _ _ hm]; rfl

end JokesAPI
